import Mathlib

/-!
# Verification of the komorebi border overlay and configuration reconciler

A shallow embedding of the two source files `komorebi/src/static_config.rs`
and `komorebi/src/border.rs`, together with proofs of the specification's
testable properties.  Types that live in the `komorebi_core` crate (outside
the two source files) are modelled from the specification and marked as such
in their doc comments.
-/

namespace Komorebi

/-- Modelled from the spec: the application-identifier kind of an identifier
rule — rules classify windows by executable name, window title, or window
class (`komorebi_core::ApplicationIdentifier`, outside the provided source). -/
inductive ApplicationIdentifier where
  | exe
  | title
  | windowClass
  deriving DecidableEq, Repr

/-- Modelled from the spec: the matching strategy of an identifier rule,
`optional<Literal|Regex|Legacy>` per §3 of the spec
(`komorebi_core::config_generation::MatchingStrategy`, outside the provided
source). -/
inductive MatchingStrategy where
  | legacy
  | literal
  | regex
  deriving DecidableEq, Repr

/-- `komorebi_core::config_generation::IdWithIdentifier`: an identifier rule
`{ kind, id, matching_strategy }` with structural equality. -/
structure IdWithIdentifier where
  kind : ApplicationIdentifier
  id : String
  matching_strategy : Option MatchingStrategy
  deriving DecidableEq, Repr

/-- Modelled from the spec: an entry of the secondary application-specific
configuration file's float list, an identifier rule together with an optional
comment that is dropped by the `f.into()` conversion in `apply_globals`. -/
structure IdWithIdentifierAndComment where
  kind : ApplicationIdentifier
  id : String
  matching_strategy : Option MatchingStrategy
  comment : Option String
  deriving DecidableEq, Repr

/-- The `f.into()` conversion used in `apply_globals`: drop the comment. -/
def stripComment (r : IdWithIdentifierAndComment) : IdWithIdentifier :=
  { kind := r.kind, id := r.id, matching_strategy := r.matching_strategy }

/-- `komorebi_core::config_generation::ApplicationOptions`: the per-entry
option tags of the secondary application-specific configuration file. -/
inductive ApplicationOptions where
  | objectNameChange
  | layered
  | borderOverflow
  | trayAndMultiWindow
  | force
  deriving DecidableEq, Repr

/-- An entry of the secondary application-specific configuration file
(`komorebi_core::config_generation::ApplicationConfiguration`). -/
structure ApplicationConfiguration where
  identifier : IdWithIdentifier
  float_identifiers : Option (List IdWithIdentifierAndComment)
  options : Option (List ApplicationOptions)
  deriving DecidableEq, Repr

/-- The matching-strategy defaulting performed at the head of every merge
loop of `apply_globals`: an absent strategy becomes `Legacy`. -/
def normalizeIdentifier (r : IdWithIdentifier) : IdWithIdentifier :=
  match r.matching_strategy with
  | none => { r with matching_strategy := some MatchingStrategy.legacy }
  | some _ => r

/-- The compiled-pattern cache `REGEX_IDENTIFIERS`, a map keyed by rule id.
The compiled `Regex` value is represented by the pattern string the external
`Regex::new` succeeded on; insertion overwrites an existing key, as
`HashMap::insert` does. -/
def insertRegex (k v : String) (cache : List (String × String)) :
    List (String × String) :=
  if cache.any (fun p => p.1 = k) then
    cache.map (fun p => if p.1 = k then (k, v) else p)
  else
    cache ++ [(k, v)]

/-- One rule-list merge loop of `apply_globals` (static_config.rs lines
484-584, one instance per registry): default the strategy to `Legacy`, skip
the rule when a structurally-equal one is already present, otherwise append
it, and for `Regex` rules compile the id into the pattern cache; a failed
compilation aborts with the registry already containing the pushed rule.
`compile` stands for the external `Regex::new`, returning `none` on an
invalid pattern.  The `Bool` is `true` on success; on failure the returned
registry and cache are the partially-mutated ones. -/
def mergeIdentifiers (compile : String → Option String)
    (rules : List IdWithIdentifier)
    (registry : List IdWithIdentifier) (cache : List (String × String)) :
    (List IdWithIdentifier × List (String × String)) × Bool :=
  match rules with
  | [] => ((registry, cache), true)
  | r :: rest =>
    let r := normalizeIdentifier r
    if r ∈ registry then
      mergeIdentifiers compile rest registry cache
    else
      let registry := registry ++ [r]
      if r.matching_strategy = some MatchingStrategy.regex then
        match compile r.id with
        | none => ((registry, cache), false)
        | some re => mergeIdentifiers compile rest registry (insertRegex r.id re cache)
      else
        mergeIdentifiers compile rest registry cache

/-- Modelled from the spec: `komorebi_core::Rect`, the rectangle type used
for work-area offsets, monitor index preferences and the border geometry.
The four components are the rectangle's four sides. -/
structure Rect where
  left : Int
  top : Int
  right : Int
  bottom : Int
  deriving DecidableEq, Repr

instance : Inhabited Rect := ⟨⟨0, 0, 0, 0⟩⟩

/-- Modelled from the spec: `komorebi_core::HidingBehaviour`, which Windows
signal to use when hiding windows (default: minimize). -/
inductive HidingBehaviour where
  | hide
  | minimize
  | cloak
  deriving DecidableEq, Repr

/-- Modelled from the spec: `komorebi_core::EaseEnum`, the animation ease
function (default: Linear). -/
inductive EaseEnum where
  | linear
  | easeIn
  | easeOut
  | easeInOut
  deriving DecidableEq, Repr

/-- The guarded identifier-rule registries together with the compiled-pattern
cache: `FLOAT_IDENTIFIERS`, `MANAGE_IDENTIFIERS`,
`TRAY_AND_MULTI_WINDOW_IDENTIFIERS`, `BORDER_OVERFLOW_IDENTIFIERS`,
`OBJECT_NAME_CHANGE_ON_LAUNCH`, `LAYERED_WHITELIST` and
`REGEX_IDENTIFIERS`. -/
structure Registries where
  float : List IdWithIdentifier
  manage : List IdWithIdentifier
  trayAndMultiWindow : List IdWithIdentifier
  borderOverflow : List IdWithIdentifier
  objectNameChange : List IdWithIdentifier
  layered : List IdWithIdentifier
  regexCache : List (String × String)
  deriving DecidableEq, Repr

/-- The empty registries, the state before any configuration is applied. -/
def emptyRegistries : Registries :=
  { float := [], manage := [], trayAndMultiWindow := [], borderOverflow := []
    objectNameChange := [], layered := [], regexCache := [] }

/-- Early-exit sequencing of the successive merge sections of
`apply_globals`: a later section runs only when every earlier one succeeded,
while the partially-mutated registries survive a failure. -/
def andThen (step : Registries → Registries × Bool) :
    Registries × Bool → Registries × Bool
  | (rs, false) => (rs, false)
  | (rs, true) => step rs

/-- The `float_rules` merge section of `apply_globals`. -/
def mergeFloatRules (compile : String → Option String)
    (rules : List IdWithIdentifier) (rs : Registries) : Registries × Bool :=
  let res := mergeIdentifiers compile rules rs.float rs.regexCache
  ({ rs with float := res.1.1, regexCache := res.1.2 }, res.2)

/-- The `manage_rules` merge section of `apply_globals`. -/
def mergeManageRules (compile : String → Option String)
    (rules : List IdWithIdentifier) (rs : Registries) : Registries × Bool :=
  let res := mergeIdentifiers compile rules rs.manage rs.regexCache
  ({ rs with manage := res.1.1, regexCache := res.1.2 }, res.2)

/-- The `object_name_change_applications` merge section of `apply_globals`. -/
def mergeObjectNameChangeRules (compile : String → Option String)
    (rules : List IdWithIdentifier) (rs : Registries) : Registries × Bool :=
  let res := mergeIdentifiers compile rules rs.objectNameChange rs.regexCache
  ({ rs with objectNameChange := res.1.1, regexCache := res.1.2 }, res.2)

/-- The `layered_applications` merge section of `apply_globals`. -/
def mergeLayeredRules (compile : String → Option String)
    (rules : List IdWithIdentifier) (rs : Registries) : Registries × Bool :=
  let res := mergeIdentifiers compile rules rs.layered rs.regexCache
  ({ rs with layered := res.1.1, regexCache := res.1.2 }, res.2)

/-- The `border_overflow_applications` merge section of `apply_globals`. -/
def mergeBorderOverflowRules (compile : String → Option String)
    (rules : List IdWithIdentifier) (rs : Registries) : Registries × Bool :=
  let res := mergeIdentifiers compile rules rs.borderOverflow rs.regexCache
  ({ rs with borderOverflow := res.1.1, regexCache := res.1.2 }, res.2)

/-- The `tray_and_multi_window_applications` merge section of
`apply_globals`. -/
def mergeTrayRules (compile : String → Option String)
    (rules : List IdWithIdentifier) (rs : Registries) : Registries × Bool :=
  let res := mergeIdentifiers compile rules rs.trayAndMultiWindow rs.regexCache
  ({ rs with trayAndMultiWindow := res.1.1, regexCache := res.1.2 }, res.2)

/-- The options loop of an application-specific configuration entry
(static_config.rs lines 613-709): the entry's identifier is normalized in
place by whichever option branch first sees it without a strategy, and each
option tag merges the identifier into its target registry with the same
idempotent-merge logic.  `applyAscOptionStep` is one option branch of the
`match o` (static_config.rs lines 615-707). -/
def applyAscOptionStep (compile : String → Option String)
    (o : ApplicationOptions) (ident : IdWithIdentifier) (rs : Registries) :
    Registries × Bool :=
  match o with
  | ApplicationOptions.objectNameChange =>
    mergeObjectNameChangeRules compile [ident] rs
  | ApplicationOptions.layered => mergeLayeredRules compile [ident] rs
  | ApplicationOptions.borderOverflow =>
    mergeBorderOverflowRules compile [ident] rs
  | ApplicationOptions.trayAndMultiWindow => mergeTrayRules compile [ident] rs
  | ApplicationOptions.force => mergeManageRules compile [ident] rs

/-- The fold of `applyAscOptionStep` over an entry's option tags, threading
the in-place normalization of the entry's identifier and stopping at the
first failure. -/
def applyAscOptions (compile : String → Option String)
    (opts : List ApplicationOptions) (ident : IdWithIdentifier)
    (rs : Registries) : Registries × Bool :=
  match opts with
  | [] => (rs, true)
  | o :: rest =>
    let ident := normalizeIdentifier ident
    let res := applyAscOptionStep compile o ident rs
    if res.2 then applyAscOptions compile rest ident res.1 else (res.1, false)

/-- One entry of the application-specific configuration file: its float
identifiers (comments stripped) are merged into the float registry, then its
option tags are expanded into the other registries. -/
def applyAscEntry (compile : String → Option String)
    (e : ApplicationConfiguration) (rs : Registries) : Registries × Bool :=
  mergeFloatRules compile ((e.float_identifiers.getD []).map stripComment) rs
  |> andThen (applyAscOptions compile (e.options.getD []) e.identifier)

/-- All entries of the application-specific configuration file, in order,
stopping at the first failure. -/
def applyAscEntries (compile : String → Option String)
    (es : List ApplicationConfiguration) (rs : Registries) :
    Registries × Bool :=
  match es with
  | [] => (rs, true)
  | e :: rest =>
    let res := applyAscEntry compile e rs
    if res.2 then applyAscEntries compile rest res.1 else (res.1, false)

/-- The `app_specific_configuration_path` section of `apply_globals`
(static_config.rs lines 586-711).  The referenced secondary file's loaded
content is modelled directly: `none` when the document has no such path, and
`some (Except.error ())` when reading or parsing the referenced file fails
(which aborts `apply_globals` just like a failed pattern compilation). -/
def applyAsc (compile : String → Option String)
    (asc : Option (Except Unit (List ApplicationConfiguration)))
    (rs : Registries) : Registries × Bool :=
  match asc with
  | none => (rs, true)
  | some (Except.error _) => (rs, false)
  | some (Except.ok es) => applyAscEntries compile es rs

/-- Modelled from the spec: `komorebi_core::DefaultLayout`, the "default"
(enum) layouts, the only layouts that round-trip through serialization. -/
inductive DefaultLayout where
  | bsp
  | columns
  | rows
  | verticalStack
  | horizontalStack
  | ultrawideVerticalStack
  deriving DecidableEq, Repr

/-- Modelled from the spec: `komorebi_core::WindowContainerBehaviour`,
what happens when a new window is opened (default: Create). -/
inductive WindowContainerBehaviour where
  | create
  | append
  deriving DecidableEq, Repr

/-- Modelled from the spec: `komorebi_core::MoveBehaviour`, what happens when
a window is moved across a monitor boundary (default: Swap). -/
inductive MoveBehaviour where
  | swap
  | insert
  deriving DecidableEq, Repr

/-- Modelled from the spec: `komorebi_core::OperationBehaviour`, what happens
when commands arrive while an unmanaged window is foregrounded
(default: Op). -/
inductive OperationBehaviour where
  | op
  | noOp
  deriving DecidableEq, Repr

/-- Modelled from the spec: `komorebi_core::FocusFollowsMouseImplementation`
(default: None). -/
inductive FocusFollowsMouseImplementation where
  | windows
  | komorebi
  deriving DecidableEq, Repr

/-- `ActiveWindowBorderColours`: per-state border colours.  A `Colour` is the
`u32` it converts to, modelled as `Nat`. -/
structure ActiveWindowBorderColours where
  single : Nat
  stack : Nat
  monocle : Nat
  deriving DecidableEq, Repr

/-- `WorkspaceConfig`: one workspace configuration snapshot.  `HashMap`s
become association lists and `PathBuf`s become strings. -/
structure WorkspaceConfig where
  name : String
  layout : Option DefaultLayout
  custom_layout : Option String
  layout_rules : Option (List (Nat × DefaultLayout))
  custom_layout_rules : Option (List (Nat × String))
  container_padding : Option Int
  workspace_padding : Option Int
  initial_workspace_rules : Option (List IdWithIdentifier)
  workspace_rules : Option (List IdWithIdentifier)
  deriving DecidableEq, Repr

/-- `MonitorConfig`: an ordered sequence of workspace snapshots plus an
optional work-area offset override. -/
structure MonitorConfig where
  workspaces : List WorkspaceConfig
  work_area_offset : Option Rect
  deriving DecidableEq, Repr

instance {ε α : Type _} [DecidableEq ε] [DecidableEq α] :
    DecidableEq (Except ε α) := fun a b =>
  match a, b with
  | Except.error e, Except.error e' =>
    if h : e = e' then isTrue (by rw [h]) else isFalse (by simp [h])
  | Except.error _, Except.ok _ => isFalse (by simp)
  | Except.ok _, Except.error _ => isFalse (by simp)
  | Except.ok v, Except.ok v' =>
    if h : v = v' then isTrue (by rw [h]) else isFalse (by simp [h])

/-- `StaticConfig`: the full on-disk configuration document.  The
`app_specific_configuration_path` field is modelled by the loaded content of
the referenced secondary file (see `applyAsc`). -/
structure StaticConfig where
  invisible_borders : Option Rect := none
  resize_delta : Option Int := none
  window_container_behaviour : Option WindowContainerBehaviour := none
  cross_monitor_move_behaviour : Option MoveBehaviour := none
  unmanaged_window_operation_behaviour : Option OperationBehaviour := none
  focus_follows_mouse : Option FocusFollowsMouseImplementation := none
  mouse_follows_focus : Option Bool := none
  app_specific_configuration : Option (Except Unit (List ApplicationConfiguration)) := none
  border_width : Option Int := none
  border_offset : Option Int := none
  active_window_border : Option Bool := none
  active_window_border_colours : Option ActiveWindowBorderColours := none
  default_workspace_padding : Option Int := none
  default_container_padding : Option Int := none
  monitors : Option (List MonitorConfig) := none
  window_hiding_behaviour : Option HidingBehaviour := none
  global_work_area_offset : Option Rect := none
  float_rules : Option (List IdWithIdentifier) := none
  manage_rules : Option (List IdWithIdentifier) := none
  border_overflow_applications : Option (List IdWithIdentifier) := none
  tray_and_multi_window_applications : Option (List IdWithIdentifier) := none
  layered_applications : Option (List IdWithIdentifier) := none
  object_name_change_applications : Option (List IdWithIdentifier) := none
  monitor_index_preferences : Option (List (Nat × Rect)) := none
  display_index_preferences : Option (List (Nat × String)) := none
  animation : Option Bool := none
  animation_ease : Option EaseEnum := none
  animation_duration : Option Nat := none
  deriving DecidableEq, Repr

/-- The Global Runtime Settings Store: the process-wide atomics and guarded
values written by `apply_globals`, plus the identifier-rule registries. -/
structure GlobalState where
  monitorIndexPreferences : List (Nat × Rect)
  displayIndexPreferences : List (Nat × String)
  hidingBehaviour : HidingBehaviour
  animationEnabled : Bool
  animationDuration : Nat
  animationEase : EaseEnum
  defaultContainerPadding : Int
  defaultWorkspacePadding : Int
  borderWidth : Int
  borderOffset : Int
  borderColourSingle : Nat
  borderColourCurrent : Nat
  borderColourStack : Nat
  borderColourMonocle : Nat
  regs : Registries
  deriving DecidableEq, Repr

/-- The scalar half of `apply_globals` (static_config.rs lines 421-474), in
source order: every conditional field is overwritten only when present in the
document, while `BORDER_WIDTH` and `BORDER_OFFSET` are stored
unconditionally, substituting the documented defaults `8` and `-1` when the
document omits them. -/
def applyScalars (cfg : StaticConfig) (s : GlobalState) : GlobalState :=
  let s := { s with monitorIndexPreferences :=
    cfg.monitor_index_preferences.getD s.monitorIndexPreferences }
  let s := { s with displayIndexPreferences :=
    cfg.display_index_preferences.getD s.displayIndexPreferences }
  let s := { s with hidingBehaviour :=
    cfg.window_hiding_behaviour.getD s.hidingBehaviour }
  let s := { s with animationEnabled := cfg.animation.getD s.animationEnabled }
  let s := { s with animationDuration :=
    cfg.animation_duration.getD s.animationDuration }
  let s := { s with animationEase := cfg.animation_ease.getD s.animationEase }
  let s := { s with defaultContainerPadding :=
    cfg.default_container_padding.getD s.defaultContainerPadding }
  let s := { s with defaultWorkspacePadding :=
    cfg.default_workspace_padding.getD s.defaultWorkspacePadding }
  let s := { s with borderWidth :=
    match cfg.border_width with
    | none => 8
    | some width => width }
  let s := { s with borderOffset := cfg.border_offset.getD (-1) }
  match cfg.active_window_border_colours with
  | none => s
  | some colours =>
    { s with borderColourSingle := colours.single
             borderColourCurrent := colours.single
             borderColourStack := colours.stack
             borderColourMonocle := colours.monocle }

/-- The rule-merge half of `apply_globals` (static_config.rs lines 476-711):
the six registries merged in source order, followed by the secondary
application-specific configuration file, stopping at the first failed pattern
compilation with the mutations made so far kept. -/
def applyRules (compile : String → Option String) (cfg : StaticConfig)
    (rs : Registries) : Registries × Bool :=
  mergeFloatRules compile (cfg.float_rules.getD []) rs
  |> andThen (mergeManageRules compile (cfg.manage_rules.getD []))
  |> andThen (mergeObjectNameChangeRules compile
      (cfg.object_name_change_applications.getD []))
  |> andThen (mergeLayeredRules compile (cfg.layered_applications.getD []))
  |> andThen (mergeBorderOverflowRules compile
      (cfg.border_overflow_applications.getD []))
  |> andThen (mergeTrayRules compile
      (cfg.tray_and_multi_window_applications.getD []))
  |> andThen (applyAsc compile cfg.app_specific_configuration)

/-- `StaticConfig::apply_globals`: the scalar stores followed by the
idempotent rule merges.  The returned state is the content of the process
globals when the function returns, whether with `Ok` (`true`) or with a
propagated error (`false`); mutations made before a failure persist, since
the store is global. -/
def applyGlobals (compile : String → Option String) (cfg : StaticConfig)
    (s : GlobalState) : GlobalState × Bool :=
  let s := applyScalars cfg s
  let res := applyRules compile cfg s.regs
  ({ s with regs := res.1 }, res.2)

/-- The read/parse-then-apply head of `StaticConfig::reload` (static_config.rs
lines 843-846): the document is read and deserialized before anything is
mutated, so a failed parse (`Except.error`) returns without touching the
global state, while a successful parse runs `apply_globals`. -/
def reloadGlobals (parsed : Except Unit StaticConfig)
    (compile : String → Option String) (s : GlobalState) :
    GlobalState × Bool :=
  match parsed with
  | Except.error _ => (s, false)
  | Except.ok cfg => applyGlobals compile cfg s

/-- Modelled from the spec: the external `Regex::new` of the `regex` crate.
The spec only requires that some id strings fail to compile as patterns (an
invalid pattern under the `Regex` strategy); this concrete instance rejects
the unclosed character class `[` and accepts everything else. -/
def specRegexCompile (s : String) : Option String :=
  if s = "[" then none else some s

/-- Modelled from the spec: `komorebi_core::Rect::add_padding`, outside the
provided source.  `set_position` calls `add_padding(-BORDER_OFFSET)` and the
spec describes the net effect as shrinking the target rectangle by the border
offset on all sides (a negative offset expands), so `add_padding p` grows the
rectangle by `p` on every side. -/
def Rect.addPadding (r : Rect) (p : Int) : Rect :=
  ⟨r.left - p, r.top - p, r.right + p, r.bottom + p⟩

/-- Modelled from the spec: `komorebi_core::Rect::add_margin`, outside the
provided source; the spec describes `add_margin(BORDER_WIDTH)` as expanding
the rectangle by the border width on all sides. -/
def Rect.addMargin (r : Rect) (m : Int) : Rect :=
  ⟨r.left - m, r.top - m, r.right + m, r.bottom + m⟩

/-- The spec's phrase "R shrunk by O on all sides": each side moves inward
by `k` (a negative `k` expands). -/
def Rect.shrinkBy (r : Rect) (k : Int) : Rect :=
  ⟨r.left + k, r.top + k, r.right - k, r.bottom - k⟩

/-- The spec's phrase "R grown by W on all sides": each side moves outward
by `k`. -/
def Rect.growBy (r : Rect) (k : Int) : Rect :=
  ⟨r.left - k, r.top - k, r.right + k, r.bottom + k⟩

/-- The `SetWindowPosition` flag bits used by border.rs. -/
inductive SwpFlag where
  | showWindow
  | noActivate
  | hideWindow
  deriving DecidableEq, Repr

/-- A native `WindowsApi` call issued by the border overlay, recorded so that
the spec's "exactly one hide invocation" and "no foreground-window query"
properties can be stated. -/
inductive NativeCall where
  | windowRectQuery (hwnd : Int)
  | setWindowPos (rect : Rect) (flags : List SwpFlag)
  | foregroundQuery
  deriving DecidableEq, Repr

/-- The external collaborators of the border overlay: the configured border
geometry globals (`BORDER_OFFSET`, `BORDER_WIDTH`) and the outcomes of the
native window queries/positioning calls. -/
structure BorderEnv where
  borderOffset : Int
  borderWidth : Int
  windowRect : Int → Except Unit Rect
  foregroundWindow : Except Unit Int
  setWindowPosOk : Bool

/-- The cross-thread mutable state of `BorderWindow`: the atomic `enabled`
flag and the mutex-guarded `rect`. -/
structure BorderState where
  enabled : Bool
  rect : Rect
  deriving DecidableEq, Repr

/-- `BorderWindow::hide`: positions the window with the `HIDE_WINDOW` flag
set and a default (zero) rectangle; returns the native call's outcome. -/
def BorderWindow.hide (env : BorderEnv) : List NativeCall × Bool :=
  ([NativeCall.setWindowPos default [SwpFlag.hideWindow]], env.setWindowPosOk)

/-- `BorderWindow::set_position` (border.rs lines 89-122): a no-op returning
success when disabled; otherwise queries the target window's bounding
rectangle, applies `add_padding(-BORDER_OFFSET)` then
`add_margin(BORDER_WIDTH)`, persists the result into the guarded `rect`, and
repositions the native window not-topmost with show+no-activate or
no-activate-only flags depending on `activate`.  Returns the new state, the
native calls issued, and whether the call returned `Ok`. -/
def BorderWindow.setPosition (env : BorderEnv) (st : BorderState)
    (window : Int) (activate : Bool) : BorderState × List NativeCall × Bool :=
  if st.enabled = false then (st, [], true)
  else
    match env.windowRect window with
    | Except.error _ => (st, [NativeCall.windowRectQuery window], false)
    | Except.ok r =>
      let r := r.addPadding (-env.borderOffset)
      let r := r.addMargin env.borderWidth
      let st := { st with rect := r }
      let flags :=
        if activate then [SwpFlag.showWindow, SwpFlag.noActivate]
        else [SwpFlag.noActivate]
      (st, [NativeCall.windowRectQuery window, NativeCall.setWindowPos r flags],
        env.setWindowPosOk)

/-- `BorderWindow::disable` (border.rs lines 132-138): atomically swap the
enabled flag to `false`, and hide the window only when it was previously
enabled; a failed hide is logged, never propagated. -/
def BorderWindow.disable (env : BorderEnv) (st : BorderState) :
    BorderState × List NativeCall :=
  if st.enabled then ({ st with enabled := false }, (BorderWindow.hide env).1)
  else ({ st with enabled := false }, [])

/-- `BorderWindow::enable` (border.rs lines 140-155): atomically swap the
enabled flag to `true` and return immediately when it was already enabled;
otherwise query the foreground window and reposition against it, logging and
swallowing any error. -/
def BorderWindow.enable (env : BorderEnv) (st : BorderState) :
    BorderState × List NativeCall :=
  if st.enabled then (st, [])
  else
    let st := { st with enabled := true }
    match env.foregroundWindow with
    | Except.error _ => (st, [NativeCall.foregroundQuery])
    | Except.ok w =>
      let res := BorderWindow.setPosition env st w false
      (res.1, NativeCall.foregroundQuery :: res.2.1)

/-- The number of native hide invocations in a call trace: positioning calls
whose flag set contains `HIDE_WINDOW`. -/
def hideInvocations (calls : List NativeCall) : Nat :=
  calls.countP fun c =>
    match c with
    | NativeCall.setWindowPos _ flags => flags.contains SwpFlag.hideWindow
    | _ => false

/-- The error kinds relevant to `StaticConfig::preload`'s socket cleanup. -/
inductive IoErrorKind where
  | notFound
  | permissionDenied
  | otherError
  deriving DecidableEq, Repr

/-- The control-socket cleanup-and-bind step of `StaticConfig::preload`
(static_config.rs lines 727-738): a failed removal of the stale socket file
is swallowed when its kind is `NotFound`, propagated otherwise; when the
removal outcome is accepted, preload proceeds to bind the fresh socket,
whose own outcome is `bindResult`. -/
def preloadSocketPhase (removeResult : Except IoErrorKind Unit)
    (bindResult : Except IoErrorKind Unit) : Except IoErrorKind Unit :=
  match removeResult with
  | Except.ok _ => bindResult
  | Except.error IoErrorKind.notFound => bindResult
  | Except.error e => Except.error e

/-- Modelled from the spec: a layout is either one of the "default" enum
layouts or a custom file-defined layout (`komorebi_core::Layout`, outside
the provided source). -/
inductive Layout where
  | defaultLayout (l : DefaultLayout)
  | custom (path : String)
  deriving DecidableEq, Repr

/-- The live-workspace state touched by the reconciler: name, layout, layout
rules and paddings. -/
structure LiveWorkspace where
  name : Option String
  layout : Layout
  layoutRules : List (Nat × Layout)
  containerPadding : Option Int
  workspacePadding : Option Int
  deriving DecidableEq, Repr

/-- Modelled from the spec: `Workspace::default()`, the blank workspace
appended when a monitor snapshot grows the live workspace count. -/
def defaultLiveWorkspace : LiveWorkspace :=
  { name := none, layout := Layout.defaultLayout DefaultLayout.bsp
    layoutRules := [], containerPadding := none, workspacePadding := none }

/-- A live monitor: its workspaces and its work-area offset override. -/
structure LiveMonitor where
  workspaces : List LiveWorkspace
  workAreaOffset : Option Rect
  deriving DecidableEq, Repr

/-- Modelled from the spec: `Monitor::ensure_workspace_count` (monitor.rs,
outside the provided source) grows the live workspace list to at least the
requested count and never shrinks it. -/
def ensureWorkspaceCount (ws : List LiveWorkspace) (n : Nat) :
    List LiveWorkspace :=
  if ws.length < n then ws ++ List.replicate (n - ws.length) defaultLiveWorkspace
  else ws

/-- Modelled from the spec: `Workspace::load_static_config` (workspace.rs,
outside the provided source) applies the snapshot's layout, paddings and
layout rules onto the matching live workspace. -/
def loadStaticConfig (lw : LiveWorkspace) (cfg : WorkspaceConfig) :
    LiveWorkspace :=
  { name := some cfg.name
    layout :=
      match cfg.layout with
      | some l => Layout.defaultLayout l
      | none => lw.layout
    layoutRules :=
      (cfg.layout_rules.getD []).map fun p => (p.1, Layout.defaultLayout p.2)
    containerPadding :=
      match cfg.container_padding with
      | some p => some p
      | none => lw.containerPadding
    workspacePadding :=
      match cfg.workspace_padding with
      | some p => some p
      | none => lw.workspacePadding }

/-- The per-workspace application loop of `postload`/`reload`
(static_config.rs lines 804-811 and 854-861): every live workspace index, in
order, loads `monitor.workspaces.get(j).expect("no static workspace
config")`; the `expect` panic on a missing snapshot is modelled as `none`. -/
def loadWorkspaces : List LiveWorkspace → List WorkspaceConfig →
    Option (List LiveWorkspace)
  | [], _ => some []
  | _ :: _, [] => none
  | w :: ws, c :: cs =>
    (loadWorkspaces ws cs).map fun rest => loadStaticConfig w c :: rest

/-- The per-monitor-snapshot application step shared by `postload` and
`reload` (static_config.rs lines 800-811 / 850-861): grow the live workspace
count to the snapshot length, apply the monitor's work-area offset override,
then load each workspace snapshot onto the matching live workspace.  `none`
models the `expect` panic when a live workspace has no snapshot. -/
def applyMonitorConfig (m : LiveMonitor) (mc : MonitorConfig) :
    Option LiveMonitor :=
  let ws := ensureWorkspaceCount m.workspaces mc.workspaces.length
  (loadWorkspaces ws mc.workspaces).map fun ws' =>
    { workspaces := ws', workAreaOffset := mc.work_area_offset }

/-- A `wm.handle_workspace_rules(&r.id, i, j, is_initial)` callback issued by
`postload`/`reload` for a workspace-scoped rule. -/
structure RuleCall where
  id : String
  monitorIdx : Nat
  workspaceIdx : Nat
  isInitial : Bool
  deriving DecidableEq, Repr

/-- The workspace-rule registration loop of `postload`/`reload` for one
monitor snapshot (static_config.rs lines 814-826 / 864-876): permanent rules
first, then initial rules, per workspace snapshot in order. -/
def registerRules (i : Nat) (mc : MonitorConfig) : List RuleCall :=
  (mc.workspaces.enum.map fun q =>
    ((q.2.workspace_rules.getD []).map fun r =>
      { id := r.id, monitorIdx := i, workspaceIdx := q.1, isInitial := false })
    ++ ((q.2.initial_workspace_rules.getD []).map fun r =>
      { id := r.id, monitorIdx := i, workspaceIdx := q.1, isInitial := true })).flatten

/-- The whole monitors loop of `postload`/`reload` (static_config.rs lines
798-828 / 848-878): each monitor snapshot, in document order, is applied to
the matching live monitor when one exists (skipped via `if let` otherwise),
and its workspace rules are registered either way; a panic during workspace
loading aborts everything after it. -/
def applyMonitors (mcs : List MonitorConfig) (live : List LiveMonitor)
    (i : Nat := 0) : Option (List LiveMonitor × List RuleCall) :=
  match mcs with
  | [] => some (live, [])
  | mc :: rest =>
    let step : Option (List LiveMonitor) :=
      match live[i]? with
      | none => some live
      | some m => (applyMonitorConfig m mc).map (live.set i)
    step.bind fun live' =>
      (applyMonitors rest live' (i + 1)).map fun res =>
        (res.1, registerRules i mc ++ res.2)

/-- One entry of the `WORKSPACE_RULES` registry: a rule id mapped to the
(monitor index, workspace index, is-initial) triple it is bound to.  The
registry is a `HashMap` keyed by id, modelled as an entry list. -/
structure WsRuleEntry where
  id : String
  monitor : Nat
  workspace : Nat
  isInitial : Bool
  deriving DecidableEq, Repr

/-- The `None`-when-empty wrapping used when serializing rule lists
(static_config.rs lines 143-152). -/
def optOfList (l : List α) : Option (List α) :=
  if l.isEmpty then none else some l

/-- Rust's `str::ends_with`, used by the serializer to keep only "exe"
identifiers; evaluated structurally over the string's character list. -/
def strEndsWith (s suffix : String) : Bool :=
  suffix.data.isSuffixOf s.data

/-- The rule lists of `From<&Workspace> for WorkspaceConfig`
(static_config.rs lines 123-141): every registry entry whose id ends in
"exe" becomes an `Exe` rule with no matching strategy, pushed to the initial
or the permanent list according to its is-initial flag — regardless of which
workspace is being serialized.  Returns (initial rules, permanent rules). -/
def workspaceRulesFromRegistry (registry : List WsRuleEntry) :
    List IdWithIdentifier × List IdWithIdentifier :=
  ((registry.filter fun e => strEndsWith e.id "exe" && e.isInitial).map fun e =>
      { kind := ApplicationIdentifier.exe, id := e.id, matching_strategy := none },
   (registry.filter fun e => strEndsWith e.id "exe" && !e.isInitial).map fun e =>
      { kind := ApplicationIdentifier.exe, id := e.id, matching_strategy := none })

/-- `From<&Workspace> for WorkspaceConfig` (static_config.rs lines 111-192):
serialize a live workspace, keeping only default-enum layouts, eliding
paddings equal to the global defaults, and deriving the rule lists from the
workspace-rule registry.  `defaults` is the
(`DEFAULT_CONTAINER_PADDING`, `DEFAULT_WORKSPACE_PADDING`) pair. -/
def workspaceConfigFromLive (defaults : Int × Int)
    (registry : List WsRuleEntry) (w : LiveWorkspace) : WorkspaceConfig :=
  let rules := workspaceRulesFromRegistry registry
  { name := w.name.getD "unnamed"
    layout :=
      match w.layout with
      | Layout.defaultLayout l => some l
      | Layout.custom _ => none
    custom_layout := none
    layout_rules := some (w.layoutRules.filterMap fun p =>
      match p.2 with
      | Layout.defaultLayout l => some (p.1, l)
      | Layout.custom _ => none)
    custom_layout_rules := none
    container_padding := w.containerPadding.bind fun p =>
      if p = defaults.1 then none else some p
    workspace_padding := w.workspacePadding.bind fun p =>
      if p = defaults.2 then none else some p
    initial_workspace_rules := optOfList rules.1
    workspace_rules := optOfList rules.2 }

/-- `From<&Monitor> for MonitorConfig` (static_config.rs lines 204-216). -/
def monitorConfigFromLive (defaults : Int × Int)
    (registry : List WsRuleEntry) (m : LiveMonitor) : MonitorConfig :=
  { workspaces := m.workspaces.map (workspaceConfigFromLive defaults registry)
    work_area_offset := m.workAreaOffset }

/-- The stale-binding detection of one serialized workspace snapshot at
coordinate (i, j) (static_config.rs lines 321-345): every rule occurrence
whose id the workspace-rule registry binds to a different coordinate yields a
relocation record (i, j, id); initial rules are scanned first, then
permanent rules. -/
def toRemoveWorkspace (registry : List WsRuleEntry) (i j : Nat)
    (w : WorkspaceConfig) : List (Nat × Nat × String) :=
  ((w.initial_workspace_rules.getD []).flatMap fun r =>
    registry.flatMap fun e =>
      if r.id = e.id ∧ (e.monitor ≠ i ∨ e.workspace ≠ j) then [(i, j, r.id)]
      else [])
  ++ ((w.workspace_rules.getD []).flatMap fun r =>
    registry.flatMap fun e =>
      if r.id = e.id ∧ (e.monitor ≠ i ∨ e.workspace ≠ j) then [(i, j, r.id)]
      else [])

/-- The workspace loop of the stale-binding detection for monitor `i`. -/
def toRemoveMonitor (registry : List WsRuleEntry) (i : Nat) (j : Nat) :
    List WorkspaceConfig → List (Nat × Nat × String)
  | [] => []
  | w :: ws =>
    toRemoveWorkspace registry i j w ++ toRemoveMonitor registry i (j + 1) ws

/-- The monitor loop of the stale-binding detection: the full `to_remove`
list of `From<&WindowManager> for StaticConfig`. -/
def toRemoveAll (registry : List WsRuleEntry) (i : Nat) :
    List MonitorConfig → List (Nat × Nat × String)
  | [] => []
  | m :: ms =>
    toRemoveMonitor registry i 0 m.workspaces ++ toRemoveAll registry (i + 1) ms

/-- In-place update of the element at one index, the `get_mut` access pattern
of the pruning loop. -/
def modifyIdx (f : α → α) : Nat → List α → List α
  | _, [] => []
  | 0, a :: as => f a :: as
  | n + 1, a :: as => a :: modifyIdx f n as

/-- One pruning step (static_config.rs lines 348-360): at the recorded
coordinate, retain only the rules whose id differs from the recorded id, in
both the permanent and the initial list. -/
def pruneRule (monitors : List MonitorConfig) (t : Nat × Nat × String) :
    List MonitorConfig :=
  let pruneWs : WorkspaceConfig → WorkspaceConfig := fun w =>
    { w with
      workspace_rules :=
        w.workspace_rules.map (List.filter fun r => r.id ≠ t.2.2)
      initial_workspace_rules :=
        w.initial_workspace_rules.map (List.filter fun r => r.id ≠ t.2.2) }
  let pruneMon : MonitorConfig → MonitorConfig := fun m =>
    { m with workspaces := modifyIdx pruneWs t.2.1 m.workspaces }
  modifyIdx pruneMon t.1 monitors

/-- The full pruning pass over the serialized monitors. -/
def pruneWorkspaceRules (monitors : List MonitorConfig)
    (registry : List WsRuleEntry) : List MonitorConfig :=
  (toRemoveAll registry 0 monitors).foldl pruneRule monitors

/-- The monitors portion of `From<&WindowManager> for StaticConfig`
(static_config.rs lines 309-360): serialize every live monitor, then prune
every rule binding that the workspace-rule registry places at a different
coordinate. -/
def staticConfigMonitors (defaults : Int × Int) (live : List LiveMonitor)
    (registry : List WsRuleEntry) : List MonitorConfig :=
  pruneWorkspaceRules (live.map (monitorConfigFromLive defaults registry))
    registry

/-- Pointwise growth of the six rule registries: every registry of `b` is the
corresponding registry of `a` with entries appended at the end.  This is the
shape in which the merge loops mutate the registries. -/
def RegExtends (a b : Registries) : Prop :=
  (∃ ext, b.float = a.float ++ ext) ∧
  (∃ ext, b.manage = a.manage ++ ext) ∧
  (∃ ext, b.trayAndMultiWindow = a.trayAndMultiWindow ++ ext) ∧
  (∃ ext, b.borderOverflow = a.borderOverflow ++ ext) ∧
  (∃ ext, b.objectNameChange = a.objectNameChange ++ ext) ∧
  (∃ ext, b.layered = a.layered ++ ext)

/-- The registry an application-specific-configuration option tag merges its
entry's identifier into. -/
def optionTarget : ApplicationOptions → Registries → List IdWithIdentifier
  | ApplicationOptions.objectNameChange, rs => rs.objectNameChange
  | ApplicationOptions.layered, rs => rs.layered
  | ApplicationOptions.borderOverflow, rs => rs.borderOverflow
  | ApplicationOptions.trayAndMultiWindow, rs => rs.trayAndMultiWindow
  | ApplicationOptions.force, rs => rs.manage

/-- All rules contributed by one application-specific-configuration entry are
already present (normalized) in the registries. -/
def EntryMergedIn (e : ApplicationConfiguration) (rs : Registries) : Prop :=
  (∀ f ∈ (e.float_identifiers.getD []).map stripComment,
    normalizeIdentifier f ∈ rs.float) ∧
  (∀ o ∈ e.options.getD [],
    normalizeIdentifier e.identifier ∈ optionTarget o rs)

/-- All rules contributed by the application-specific configuration content
are already present in the registries (`False` for unreadable content, which
can never have been merged successfully). -/
def AscMergedIn : Option (Except Unit (List ApplicationConfiguration)) →
    Registries → Prop
  | none, _ => True
  | some (Except.error _), _ => False
  | some (Except.ok es), rs => ∀ e ∈ es, EntryMergedIn e rs

/-- Every rule of every rule list of the document is already present
(normalized) in its target registry. -/
def AllMergedIn (cfg : StaticConfig) (rs : Registries) : Prop :=
  (∀ r ∈ cfg.float_rules.getD [], normalizeIdentifier r ∈ rs.float) ∧
  (∀ r ∈ cfg.manage_rules.getD [], normalizeIdentifier r ∈ rs.manage) ∧
  (∀ r ∈ cfg.object_name_change_applications.getD [],
    normalizeIdentifier r ∈ rs.objectNameChange) ∧
  (∀ r ∈ cfg.layered_applications.getD [],
    normalizeIdentifier r ∈ rs.layered) ∧
  (∀ r ∈ cfg.border_overflow_applications.getD [],
    normalizeIdentifier r ∈ rs.borderOverflow) ∧
  (∀ r ∈ cfg.tray_and_multi_window_applications.getD [],
    normalizeIdentifier r ∈ rs.trayAndMultiWindow) ∧
  AscMergedIn cfg.app_specific_configuration rs

/-- No registry contains two structurally-equal entries. -/
def AllNodup (rs : Registries) : Prop :=
  rs.float.Nodup ∧ rs.manage.Nodup ∧ rs.trayAndMultiWindow.Nodup ∧
  rs.borderOverflow.Nodup ∧ rs.objectNameChange.Nodup ∧ rs.layered.Nodup

/-- No rule with the given id appears in either rule list of the workspace
snapshot at coordinate (m, w) of the document. -/
def RuleIdAbsentAt (monitors : List MonitorConfig) (m w : Nat)
    (ruleId : String) : Prop :=
  ∀ mon ws, monitors[m]? = some mon → mon.workspaces[w]? = some ws →
    (∀ r ∈ ws.workspace_rules.getD [], r.id ≠ ruleId) ∧
    (∀ r ∈ ws.initial_workspace_rules.getD [], r.id ≠ ruleId)

/-- The workspace count of an optional monitor snapshot, used to state that
pruning preserves the document's shape. -/
def monShape (m : MonitorConfig) : Nat := m.workspaces.length

/- Concrete example inputs used by the counterexamples and witnesses. -/

/-- A float rule whose only defect is a `Regex` strategy id that does not
compile as a pattern. -/
def badRule : IdWithIdentifier :=
  { kind := ApplicationIdentifier.exe, id := "["
    matching_strategy := some MatchingStrategy.regex }

/-- An unproblematic legacy rule. -/
def goodRule : IdWithIdentifier :=
  { kind := ApplicationIdentifier.exe, id := "firefox"
    matching_strategy := some MatchingStrategy.legacy }

/-- A rule with a valid regex pattern. -/
def regexRule : IdWithIdentifier :=
  { kind := ApplicationIdentifier.windowClass, id := "notepad.*"
    matching_strategy := some MatchingStrategy.regex }

/-- A baseline global state with empty registries. -/
def baseGlobalState : GlobalState :=
  { monitorIndexPreferences := [], displayIndexPreferences := []
    hidingBehaviour := HidingBehaviour.minimize, animationEnabled := false
    animationDuration := 250, animationEase := EaseEnum.linear
    defaultContainerPadding := 10, defaultWorkspacePadding := 10
    borderWidth := 8, borderOffset := -1
    borderColourSingle := 0, borderColourCurrent := 0
    borderColourStack := 0, borderColourMonocle := 0
    regs := emptyRegistries }

/-- A pre-reload state whose border width differs from the default. -/
def preReloadState : GlobalState := { baseGlobalState with borderWidth := 12 }

/-- A document whose only defect is `badRule`. -/
def badRegexOnlyCfg : StaticConfig := { float_rules := some [badRule] }

/-- A document whose float list has a non-compiling rule followed by a good
one. -/
def badThenGoodCfg : StaticConfig := { float_rules := some [badRule, goodRule] }

/-- A fully valid document exercising both a legacy and a regex rule. -/
def validRulesCfg : StaticConfig :=
  { float_rules := some [goodRule, regexRule], manage_rules := some [goodRule] }

/-- A concrete target rectangle. -/
def targetRect : Rect := ⟨10, 20, 110, 220⟩

/-- A concrete border environment: negative offset (expansion) and zero
width, with all native calls succeeding. -/
def borderEnvW : BorderEnv :=
  { borderOffset := -3, borderWidth := 0
    windowRect := fun _ => Except.ok targetRect
    foregroundWindow := Except.ok 7, setWindowPosOk := true }

/-- An enabled overlay with the default rectangle. -/
def enabledBorder : BorderState := { enabled := true, rect := default }

/-- A disabled overlay remembering some rectangle. -/
def disabledBorder : BorderState := { enabled := false, rect := targetRect }

/-- A concrete workspace-rule registry binding "app.exe" to monitor 0,
workspace 0. -/
def wsRegistryW : List WsRuleEntry :=
  [{ id := "app.exe", monitor := 0, workspace := 0, isInitial := false }]

/-- One live monitor with two workspaces. -/
def liveMonitorsW : List LiveMonitor :=
  [{ workspaces := [defaultLiveWorkspace, defaultLiveWorkspace]
     workAreaOffset := none }]

/-- A concrete workspace snapshot. -/
def workspaceCfgW : WorkspaceConfig :=
  { name := "one", layout := some DefaultLayout.bsp, custom_layout := none
    layout_rules := none, custom_layout_rules := none
    container_padding := none, workspace_padding := none
    initial_workspace_rules := none, workspace_rules := none }

/-- A live monitor with a single workspace. -/
def liveMonitorW : LiveMonitor :=
  { workspaces := [defaultLiveWorkspace], workAreaOffset := none }

/-- A live monitor with two workspaces. -/
def liveMonitor2W : LiveMonitor :=
  { workspaces := [defaultLiveWorkspace, defaultLiveWorkspace]
    workAreaOffset := none }

/-- The live monitor produced by applying `monitorCfg2W` to `liveMonitorW`. -/
def loadedMonitorW : LiveMonitor :=
  ⟨[loadStaticConfig defaultLiveWorkspace workspaceCfgW,
    loadStaticConfig defaultLiveWorkspace workspaceCfgW], none⟩

/-- A monitor snapshot listing two workspaces. -/
def monitorCfg2W : MonitorConfig :=
  { workspaces := [workspaceCfgW, workspaceCfgW], work_area_offset := none }

/-- A monitor snapshot listing one workspace. -/
def monitorCfg1W : MonitorConfig :=
  { workspaces := [workspaceCfgW], work_area_offset := none }

/-- The snapshot of workspace 1 of `liveMonitorsW` after the pruning pass:
"app.exe" is bound to workspace 0, so its occurrence here was pruned. -/
def prunedWorkspace1W : WorkspaceConfig :=
  { name := "unnamed", layout := some DefaultLayout.bsp, custom_layout := none
    layout_rules := some [], custom_layout_rules := none
    container_padding := none, workspace_padding := none
    initial_workspace_rules := none, workspace_rules := some [] }

/-- The snapshot of the single monitor of `liveMonitorsW` after the pruning
pass. -/
def prunedMonitorW : MonitorConfig :=
  { workspaces :=
      [{ name := "unnamed", layout := some DefaultLayout.bsp
         custom_layout := none, layout_rules := some []
         custom_layout_rules := none, container_padding := none
         workspace_padding := none, initial_workspace_rules := none
         workspace_rules := some
           [⟨ApplicationIdentifier.exe, "app.exe", none⟩] },
       prunedWorkspace1W]
    work_area_offset := none }

/-! ## Basic lemmas -/

theorem applyScalars_regs (cfg : StaticConfig) (s : GlobalState) :
    (applyScalars cfg s).regs = s.regs := by
  unfold applyScalars
  cases cfg.active_window_border_colours <;> rfl

theorem applyGlobals_regs (compile : String → Option String)
    (cfg : StaticConfig) (s : GlobalState) :
    (applyGlobals compile cfg s).1.regs = (applyRules compile cfg s.regs).1 ∧
    (applyGlobals compile cfg s).2 = (applyRules compile cfg s.regs).2 := by
  unfold applyGlobals
  simp only []
  rw [applyScalars_regs]
  exact ⟨rfl, rfl⟩

/-! ## C5: default substitution for border width and offset -/

/-- C5: for every configuration document, `apply_globals` stores `8` as the
border width when `border_width` is absent and `-1` as the border offset when
`border_offset` is absent, and stores the given values when the fields are
present. -/
theorem apply_globals_border_defaults (compile : String → Option String)
    (cfg : StaticConfig) (s : GlobalState) :
    ((applyGlobals compile cfg s).1.borderWidth =
      match cfg.border_width with
      | none => 8
      | some width => width) ∧
    ((applyGlobals compile cfg s).1.borderOffset =
      match cfg.border_offset with
      | none => -1
      | some offset => offset) := by
  unfold applyGlobals applyScalars
  cases cfg.active_window_border_colours <;>
    cases cfg.border_width <;> cases cfg.border_offset <;>
    exact ⟨rfl, rfl⟩

/-! ## C7: set_position is a successful no-op when disabled -/

/-- C7: for every overlay whose enabled flag is false, `set_position` returns
success immediately: the state (hence the persisted rectangle) is unchanged
and no native call — neither the window-rectangle query nor a positioning
call — is issued. -/
theorem set_position_noop_when_disabled (env : BorderEnv) (st : BorderState)
    (window : Int) (activate : Bool) (h : st.enabled = false) :
    BorderWindow.setPosition env st window activate = (st, [], true) := by
  unfold BorderWindow.setPosition
  rw [h]
  rfl

theorem set_position_noop_when_disabled_witness :
    disabledBorder.enabled = false ∧
    BorderWindow.setPosition borderEnvW disabledBorder 5 true
      = (disabledBorder, [], true) :=
  ⟨rfl, set_position_noop_when_disabled borderEnvW disabledBorder 5 true rfl⟩

/-! ## C4: border geometry of set_position -/

/-- C4: for every enabled overlay, target window with bounding rectangle `R`,
configured border width `W` and offset `O`, `set_position` computes the
rectangle `R` shrunk by `O` on all sides then grown by `W` on all sides,
persists it as the overlay's rectangle, and repositions the native window to
it; this holds for every `O` (negative or positive) and every `W`,
including `W = 0`. -/
theorem set_position_geometry (env : BorderEnv) (st : BorderState)
    (window : Int) (activate : Bool) (R : Rect)
    (hen : st.enabled = true) (hr : env.windowRect window = Except.ok R) :
    BorderWindow.setPosition env st window activate =
      ({ st with rect := (R.shrinkBy env.borderOffset).growBy env.borderWidth },
       [NativeCall.windowRectQuery window,
        NativeCall.setWindowPos
          ((R.shrinkBy env.borderOffset).growBy env.borderWidth)
          (if activate then [SwpFlag.showWindow, SwpFlag.noActivate]
           else [SwpFlag.noActivate])],
       env.setWindowPosOk) := by
  unfold BorderWindow.setPosition
  rw [hen, hr]
  have hgeom : (R.addPadding (-env.borderOffset)).addMargin env.borderWidth =
      (R.shrinkBy env.borderOffset).growBy env.borderWidth := by
    simp [Rect.addPadding, Rect.addMargin, Rect.shrinkBy, Rect.growBy]
    omega
  simp only [Bool.true_eq_false, if_false, hgeom]

theorem set_position_geometry_witness :
    enabledBorder.enabled = true ∧
    borderEnvW.windowRect 5 = Except.ok targetRect ∧
    BorderWindow.setPosition borderEnvW enabledBorder 5 false =
      ({ enabledBorder with
          rect := (targetRect.shrinkBy borderEnvW.borderOffset).growBy
            borderEnvW.borderWidth },
       [NativeCall.windowRectQuery 5,
        NativeCall.setWindowPos
          ((targetRect.shrinkBy borderEnvW.borderOffset).growBy
            borderEnvW.borderWidth)
          [SwpFlag.noActivate]],
       borderEnvW.setWindowPosOk) :=
  ⟨rfl, rfl, set_position_geometry borderEnvW enabledBorder 5 false targetRect
    rfl rfl⟩

/-! ## C6: disable/enable idempotence -/

/-- C6: on an enabled overlay, calling `disable()` twice performs exactly one
native hide invocation (the second call does nothing) and leaves the enabled
flag false; calling `enable()` on the already-enabled overlay performs no
foreground-window query and no repositioning — it returns with no native
calls and the state unchanged — and the enabled flag stays true. -/
theorem border_disable_enable_idempotent (env : BorderEnv) (st : BorderState)
    (h : st.enabled = true) :
    (hideInvocations ((BorderWindow.disable env st).2
        ++ (BorderWindow.disable env (BorderWindow.disable env st).1).2) = 1
      ∧ (BorderWindow.disable env (BorderWindow.disable env st).1).1.enabled
          = false)
    ∧ (BorderWindow.enable env st = (st, [])
      ∧ (BorderWindow.enable env st).1.enabled = true) := by
  unfold BorderWindow.disable BorderWindow.enable BorderWindow.hide
  rw [h]
  simp [hideInvocations, h]

theorem border_disable_enable_idempotent_witness :
    enabledBorder.enabled = true ∧
    (hideInvocations ((BorderWindow.disable borderEnvW enabledBorder).2
        ++ (BorderWindow.disable borderEnvW
            (BorderWindow.disable borderEnvW enabledBorder).1).2) = 1
      ∧ (BorderWindow.disable borderEnvW
          (BorderWindow.disable borderEnvW enabledBorder).1).1.enabled = false)
    ∧ (BorderWindow.enable borderEnvW enabledBorder = (enabledBorder, [])
      ∧ (BorderWindow.enable borderEnvW enabledBorder).1.enabled = true) :=
  ⟨rfl, border_disable_enable_idempotent borderEnvW enabledBorder rfl⟩

/-! ## C9: socket cleanup treats not-found as success -/

/-- C9: during preload, a not-found failure when removing the stale
control-socket file is treated as success and preload proceeds to bind the
fresh socket (as it does when the removal succeeds), while a removal failure
of any other kind fails preload with that error. -/
theorem preload_socket_cleanup (bindResult : Except IoErrorKind Unit)
    (e : IoErrorKind) (h : e ≠ IoErrorKind.notFound) :
    preloadSocketPhase (Except.error IoErrorKind.notFound) bindResult
      = bindResult
    ∧ preloadSocketPhase (Except.ok ()) bindResult = bindResult
    ∧ preloadSocketPhase (Except.error e) bindResult = Except.error e := by
  refine ⟨rfl, rfl, ?_⟩
  cases e with
  | notFound => exact absurd rfl h
  | permissionDenied => rfl
  | otherError => rfl

theorem preload_socket_cleanup_witness :
    IoErrorKind.permissionDenied ≠ IoErrorKind.notFound ∧
    (preloadSocketPhase (Except.error IoErrorKind.notFound) (Except.ok ())
        = Except.ok ()
      ∧ preloadSocketPhase (Except.ok ()) (Except.ok ()) = Except.ok ()
      ∧ preloadSocketPhase (Except.error IoErrorKind.permissionDenied)
          (Except.ok ()) = Except.error IoErrorKind.permissionDenied) :=
  ⟨by decide, preload_socket_cleanup (Except.ok ())
    IoErrorKind.permissionDenied (by decide)⟩

/-! ## C8 and C10: monitor snapshot application -/

theorem loadWorkspaces_none_of_lt (live : List LiveWorkspace)
    (snaps : List WorkspaceConfig) (h : snaps.length < live.length) :
    loadWorkspaces live snaps = none := by
  induction live generalizing snaps with
  | nil => simp at h
  | cons w ws ih =>
    cases snaps with
    | nil => rfl
    | cons c cs =>
      have : loadWorkspaces ws cs = none := by
        apply ih
        simpa using Nat.lt_of_succ_lt_succ h
      simp [loadWorkspaces, this]

theorem loadWorkspaces_length (live : List LiveWorkspace)
    (snaps : List WorkspaceConfig) (out : List LiveWorkspace)
    (h : loadWorkspaces live snaps = some out) : out.length = live.length := by
  induction live generalizing snaps out with
  | nil =>
    simp only [loadWorkspaces, Option.some.injEq] at h
    simp [← h]
  | cons w ws ih =>
    cases snaps with
    | nil => exact Option.noConfusion h
    | cons c cs =>
      simp only [loadWorkspaces] at h
      cases hrec : loadWorkspaces ws cs with
      | none => rw [hrec] at h; exact absurd h (by simp)
      | some rest =>
        rw [hrec] at h
        simp only [Option.map_some', Option.some.injEq] at h
        subst h
        simp [ih cs rest hrec]

theorem ensureWorkspaceCount_length (ws : List LiveWorkspace) (n : Nat) :
    (ensureWorkspaceCount ws n).length = max ws.length n := by
  unfold ensureWorkspaceCount
  by_cases h : ws.length < n
  · rw [if_pos h]
    simp
    omega
  · rw [if_neg h]
    omega

/-- C8: whenever the per-monitor snapshot application step of
`postload`/`reload` completes on a live monitor, the monitor's workspace
count afterwards is at least its count before and at least the snapshot's
workspace-list length: applying a monitor snapshot never removes live
workspaces. -/
theorem monitor_snapshot_never_shrinks (m : LiveMonitor) (mc : MonitorConfig)
    (m' : LiveMonitor) (h : applyMonitorConfig m mc = some m') :
    m.workspaces.length ≤ m'.workspaces.length ∧
    mc.workspaces.length ≤ m'.workspaces.length := by
  unfold applyMonitorConfig at h
  simp only [] at h
  cases hl : loadWorkspaces (ensureWorkspaceCount m.workspaces
      mc.workspaces.length) mc.workspaces with
  | none => rw [hl] at h; exact absurd h (by simp)
  | some out =>
    rw [hl] at h
    simp only [Option.map_some', Option.some.injEq] at h
    have hlen := loadWorkspaces_length _ _ _ hl
    have hens := ensureWorkspaceCount_length m.workspaces mc.workspaces.length
    have : m'.workspaces = out := by rw [← h]
    rw [this, hlen, hens]
    omega

theorem monitor_snapshot_never_shrinks_witness :
    applyMonitorConfig liveMonitorW monitorCfg2W = some loadedMonitorW ∧
    liveMonitorW.workspaces.length ≤ loadedMonitorW.workspaces.length ∧
    monitorCfg2W.workspaces.length ≤ loadedMonitorW.workspaces.length :=
  ⟨by decide,
   monitor_snapshot_never_shrinks liveMonitorW monitorCfg2W loadedMonitorW
    (by decide)⟩

/-- C10: when the live monitor has more workspaces than the snapshot lists
(`ensure_workspace_count` only ever grows), the per-workspace application
step of `postload`/`reload` hits the `expect("no static workspace config")`
panic — modelled as `none` — rather than skipping the extra workspaces or
returning an error. -/
theorem monitor_snapshot_panics_on_extra_workspaces (m : LiveMonitor)
    (mc : MonitorConfig) (h : mc.workspaces.length < m.workspaces.length) :
    applyMonitorConfig m mc = none := by
  unfold applyMonitorConfig
  simp only []
  have hens : ensureWorkspaceCount m.workspaces mc.workspaces.length
      = m.workspaces := by
    unfold ensureWorkspaceCount
    rw [if_neg]
    omega
  rw [hens, loadWorkspaces_none_of_lt _ _ h]
  rfl

theorem monitor_snapshot_panics_on_extra_workspaces_witness :
    monitorCfg1W.workspaces.length < liveMonitor2W.workspaces.length ∧
    applyMonitorConfig liveMonitor2W monitorCfg1W = none :=
  ⟨by decide, monitor_snapshot_panics_on_extra_workspaces liveMonitor2W
    monitorCfg1W (by decide)⟩

/-! ## C1: reload atomicity -/

/-- C1 counterexample: the claim asserts that every reload failing during
the parse/validation phase — explicitly including a document whose only
defect is a Regex-strategy rule whose id does not compile — leaves the
global state exactly equal to its pre-reload value.  On the document whose
float list holds only `badRule`, the reload fails, yet the border width has
been overwritten with the default 8 (the pre-reload value was 12) and the
offending rule has already been appended to the float registry: pattern
validation happens inside `apply_globals`, after mutation has begun. -/
theorem reload_regex_failure_mutates_state :
    (reloadGlobals (Except.ok badRegexOnlyCfg) specRegexCompile
        preReloadState).2 = false
    ∧ (reloadGlobals (Except.ok badRegexOnlyCfg) specRegexCompile
        preReloadState).1 ≠ preReloadState
    ∧ (reloadGlobals (Except.ok badRegexOnlyCfg) specRegexCompile
        preReloadState).1.borderWidth = 8
    ∧ preReloadState.borderWidth = 12
    ∧ (reloadGlobals (Except.ok badRegexOnlyCfg) specRegexCompile
        preReloadState).1.regs.float = [badRule]
    ∧ preReloadState.regs.float = [] := by
  refine ⟨rfl, ?_, rfl, rfl, rfl, rfl⟩
  intro hEq
  have : (reloadGlobals (Except.ok badRegexOnlyCfg) specRegexCompile
      preReloadState).1.borderWidth = preReloadState.borderWidth :=
    congrArg GlobalState.borderWidth hEq
  rw [show (reloadGlobals (Except.ok badRegexOnlyCfg) specRegexCompile
      preReloadState).1.borderWidth = 8 from rfl] at this
  rw [show preReloadState.borderWidth = 12 from rfl] at this
  exact absurd this (by decide)

/-- C1 (amended): a reload whose document fails to be read or deserialized —
the `serde` parse step, which fully precedes any mutation — leaves every
global runtime settings field, every identifier-rule registry and the regex
pattern cache exactly equal to their pre-reload values; a document that only
fails regex-pattern validation does not enjoy this (validation happens inside
`apply_globals`, interleaved with mutation). -/
theorem reload_parse_failure_preserves_state
    (compile : String → Option String) (s : GlobalState) :
    reloadGlobals (Except.error ()) compile s = (s, false) := rfl

/-! ## C2: idempotent rule merge — core lemmas about `mergeIdentifiers` -/

theorem normalizeIdentifier_idem (r : IdWithIdentifier) :
    normalizeIdentifier (normalizeIdentifier r) = normalizeIdentifier r := by
  cases r with
  | mk kind id strategy => cases strategy <;> rfl

theorem mergeIdentifiers_nil (compile : String → Option String)
    (reg : List IdWithIdentifier) (cache : List (String × String)) :
    mergeIdentifiers compile [] reg cache = ((reg, cache), true) := rfl

theorem mergeIdentifiers_cons_mem (compile : String → Option String)
    (r : IdWithIdentifier) (rest : List IdWithIdentifier)
    (reg : List IdWithIdentifier) (cache : List (String × String))
    (h : normalizeIdentifier r ∈ reg) :
    mergeIdentifiers compile (r :: rest) reg cache
      = mergeIdentifiers compile rest reg cache := by
  simp only [mergeIdentifiers]
  rw [if_pos h]

theorem mergeIdentifiers_cons_fail (compile : String → Option String)
    (r : IdWithIdentifier) (rest : List IdWithIdentifier)
    (reg : List IdWithIdentifier) (cache : List (String × String))
    (h : normalizeIdentifier r ∉ reg)
    (hs : (normalizeIdentifier r).matching_strategy
      = some MatchingStrategy.regex)
    (hc : compile (normalizeIdentifier r).id = none) :
    mergeIdentifiers compile (r :: rest) reg cache
      = ((reg ++ [normalizeIdentifier r], cache), false) := by
  simp only [mergeIdentifiers]
  rw [if_neg h, if_pos hs, hc]

theorem mergeIdentifiers_cons_compiled (compile : String → Option String)
    (r : IdWithIdentifier) (rest : List IdWithIdentifier)
    (reg : List IdWithIdentifier) (cache : List (String × String))
    (re : String) (h : normalizeIdentifier r ∉ reg)
    (hs : (normalizeIdentifier r).matching_strategy
      = some MatchingStrategy.regex)
    (hc : compile (normalizeIdentifier r).id = some re) :
    mergeIdentifiers compile (r :: rest) reg cache
      = mergeIdentifiers compile rest (reg ++ [normalizeIdentifier r])
          (insertRegex (normalizeIdentifier r).id re cache) := by
  simp only [mergeIdentifiers]
  rw [if_neg h, if_pos hs, hc]

theorem mergeIdentifiers_cons_plain (compile : String → Option String)
    (r : IdWithIdentifier) (rest : List IdWithIdentifier)
    (reg : List IdWithIdentifier) (cache : List (String × String))
    (h : normalizeIdentifier r ∉ reg)
    (hs : (normalizeIdentifier r).matching_strategy
      ≠ some MatchingStrategy.regex) :
    mergeIdentifiers compile (r :: rest) reg cache
      = mergeIdentifiers compile rest (reg ++ [normalizeIdentifier r]) cache := by
  simp only [mergeIdentifiers]
  rw [if_neg h, if_neg hs]

theorem mergeIdentifiers_extends (compile : String → Option String)
    (rules : List IdWithIdentifier) :
    ∀ reg cache, ∃ ext,
      (mergeIdentifiers compile rules reg cache).1.1 = reg ++ ext := by
  induction rules with
  | nil => exact fun reg cache => ⟨[], by rw [mergeIdentifiers_nil]; simp⟩
  | cons r rest ih =>
    intro reg cache
    by_cases hmem : normalizeIdentifier r ∈ reg
    · rw [mergeIdentifiers_cons_mem compile r rest reg cache hmem]
      exact ih reg cache
    · by_cases hs : (normalizeIdentifier r).matching_strategy
          = some MatchingStrategy.regex
      · cases hc : compile (normalizeIdentifier r).id with
        | none =>
          rw [mergeIdentifiers_cons_fail compile r rest reg cache hmem hs hc]
          exact ⟨[normalizeIdentifier r], rfl⟩
        | some re =>
          rw [mergeIdentifiers_cons_compiled compile r rest reg cache re
            hmem hs hc]
          obtain ⟨ext, hext⟩ := ih (reg ++ [normalizeIdentifier r])
            (insertRegex (normalizeIdentifier r).id re cache)
          exact ⟨normalizeIdentifier r :: ext, by
            rw [hext, List.append_assoc]; rfl⟩
      · rw [mergeIdentifiers_cons_plain compile r rest reg cache hmem hs]
        obtain ⟨ext, hext⟩ := ih (reg ++ [normalizeIdentifier r]) cache
        exact ⟨normalizeIdentifier r :: ext, by
          rw [hext, List.append_assoc]; rfl⟩

theorem mergeIdentifiers_mem_of_ok (compile : String → Option String)
    (rules : List IdWithIdentifier) :
    ∀ reg cache, (mergeIdentifiers compile rules reg cache).2 = true →
      ∀ r ∈ rules, normalizeIdentifier r
        ∈ (mergeIdentifiers compile rules reg cache).1.1 := by
  induction rules with
  | nil => intro reg cache _ r hr; exact absurd hr (List.not_mem_nil r)
  | cons x rest ih =>
    intro reg cache hok r hr
    by_cases hmem : normalizeIdentifier x ∈ reg
    · rw [mergeIdentifiers_cons_mem compile x rest reg cache hmem] at hok ⊢
      rcases List.mem_cons.mp hr with hrx | hrrest
      · subst hrx
        obtain ⟨ext, hext⟩ := mergeIdentifiers_extends compile rest reg cache
        rw [hext]
        exact List.mem_append_left ext hmem
      · exact ih reg cache hok r hrrest
    · by_cases hs : (normalizeIdentifier x).matching_strategy
          = some MatchingStrategy.regex
      · cases hc : compile (normalizeIdentifier x).id with
        | none =>
          rw [mergeIdentifiers_cons_fail compile x rest reg cache hmem hs hc]
            at hok
          exact absurd hok (by simp)
        | some re =>
          rw [mergeIdentifiers_cons_compiled compile x rest reg cache re
            hmem hs hc] at hok ⊢
          rcases List.mem_cons.mp hr with hrx | hrrest
          · subst hrx
            obtain ⟨ext, hext⟩ := mergeIdentifiers_extends compile rest
              (reg ++ [normalizeIdentifier r])
              (insertRegex (normalizeIdentifier r).id re cache)
            rw [hext]
            exact List.mem_append_left ext
              (List.mem_append_right reg (List.mem_singleton.mpr rfl))
          · exact ih _ _ hok r hrrest
      · rw [mergeIdentifiers_cons_plain compile x rest reg cache hmem hs]
          at hok ⊢
        rcases List.mem_cons.mp hr with hrx | hrrest
        · subst hrx
          obtain ⟨ext, hext⟩ := mergeIdentifiers_extends compile rest
            (reg ++ [normalizeIdentifier r]) cache
          rw [hext]
          exact List.mem_append_left ext
            (List.mem_append_right reg (List.mem_singleton.mpr rfl))
        · exact ih _ _ hok r hrrest

theorem mergeIdentifiers_skip_all (compile : String → Option String)
    (rules : List IdWithIdentifier) :
    ∀ reg cache, (∀ r ∈ rules, normalizeIdentifier r ∈ reg) →
      mergeIdentifiers compile rules reg cache = ((reg, cache), true) := by
  induction rules with
  | nil => intro reg cache _; rfl
  | cons r rest ih =>
    intro reg cache h
    rw [mergeIdentifiers_cons_mem compile r rest reg cache
      (h r (List.mem_cons_self r rest))]
    exact ih reg cache fun x hx => h x (List.mem_cons_of_mem r hx)

theorem mergeIdentifiers_nodup (compile : String → Option String)
    (rules : List IdWithIdentifier) :
    ∀ reg cache, reg.Nodup →
      (mergeIdentifiers compile rules reg cache).1.1.Nodup := by
  induction rules with
  | nil => intro reg cache h; rw [mergeIdentifiers_nil]; exact h
  | cons r rest ih =>
    intro reg cache hnd
    by_cases hmem : normalizeIdentifier r ∈ reg
    · rw [mergeIdentifiers_cons_mem compile r rest reg cache hmem]
      exact ih reg cache hnd
    · have hnd' : (reg ++ [normalizeIdentifier r]).Nodup := by
        rw [List.nodup_append]
        refine ⟨hnd, List.nodup_singleton _, fun a ha hb => ?_⟩
        rw [List.mem_singleton.mp hb] at ha
        exact hmem ha
      by_cases hs : (normalizeIdentifier r).matching_strategy
          = some MatchingStrategy.regex
      · cases hc : compile (normalizeIdentifier r).id with
        | none =>
          rw [mergeIdentifiers_cons_fail compile r rest reg cache hmem hs hc]
          exact hnd'
        | some re =>
          rw [mergeIdentifiers_cons_compiled compile r rest reg cache re
            hmem hs hc]
          exact ih _ _ hnd'
      · rw [mergeIdentifiers_cons_plain compile r rest reg cache hmem hs]
        exact ih _ _ hnd'

theorem regExtends_refl (rs : Registries) : RegExtends rs rs :=
  ⟨⟨[], by simp⟩, ⟨[], by simp⟩, ⟨[], by simp⟩, ⟨[], by simp⟩, ⟨[], by simp⟩,
   ⟨[], by simp⟩⟩

theorem regExtends_trans {a b c : Registries} (h1 : RegExtends a b)
    (h2 : RegExtends b c) : RegExtends a c := by
  obtain ⟨⟨e1, he1⟩, ⟨e2, he2⟩, ⟨e3, he3⟩, ⟨e4, he4⟩, ⟨e5, he5⟩, ⟨e6, he6⟩⟩ := h1
  obtain ⟨⟨f1, hf1⟩, ⟨f2, hf2⟩, ⟨f3, hf3⟩, ⟨f4, hf4⟩, ⟨f5, hf5⟩, ⟨f6, hf6⟩⟩ := h2
  exact ⟨⟨e1 ++ f1, by rw [hf1, he1, List.append_assoc]⟩,
         ⟨e2 ++ f2, by rw [hf2, he2, List.append_assoc]⟩,
         ⟨e3 ++ f3, by rw [hf3, he3, List.append_assoc]⟩,
         ⟨e4 ++ f4, by rw [hf4, he4, List.append_assoc]⟩,
         ⟨e5 ++ f5, by rw [hf5, he5, List.append_assoc]⟩,
         ⟨e6 ++ f6, by rw [hf6, he6, List.append_assoc]⟩⟩

theorem regExtends_mem_float {a b : Registries} (h : RegExtends a b)
    {x : IdWithIdentifier} (hx : x ∈ a.float) : x ∈ b.float := by
  obtain ⟨⟨e, he⟩, _, _, _, _, _⟩ := h
  rw [he]; exact List.mem_append_left e hx

theorem regExtends_mem_manage {a b : Registries} (h : RegExtends a b)
    {x : IdWithIdentifier} (hx : x ∈ a.manage) : x ∈ b.manage := by
  obtain ⟨_, ⟨e, he⟩, _, _, _, _⟩ := h
  rw [he]; exact List.mem_append_left e hx

theorem regExtends_mem_tray {a b : Registries} (h : RegExtends a b)
    {x : IdWithIdentifier} (hx : x ∈ a.trayAndMultiWindow) :
    x ∈ b.trayAndMultiWindow := by
  obtain ⟨_, _, ⟨e, he⟩, _, _, _⟩ := h
  rw [he]; exact List.mem_append_left e hx

theorem regExtends_mem_borderOverflow {a b : Registries} (h : RegExtends a b)
    {x : IdWithIdentifier} (hx : x ∈ a.borderOverflow) :
    x ∈ b.borderOverflow := by
  obtain ⟨_, _, _, ⟨e, he⟩, _, _⟩ := h
  rw [he]; exact List.mem_append_left e hx

theorem regExtends_mem_objectNameChange {a b : Registries}
    (h : RegExtends a b) {x : IdWithIdentifier}
    (hx : x ∈ a.objectNameChange) : x ∈ b.objectNameChange := by
  obtain ⟨_, _, _, _, ⟨e, he⟩, _⟩ := h
  rw [he]; exact List.mem_append_left e hx

theorem regExtends_mem_layered {a b : Registries} (h : RegExtends a b)
    {x : IdWithIdentifier} (hx : x ∈ a.layered) : x ∈ b.layered := by
  obtain ⟨_, _, _, _, _, ⟨e, he⟩⟩ := h
  rw [he]; exact List.mem_append_left e hx

theorem regExtends_mem_target {a b : Registries} (h : RegExtends a b)
    (o : ApplicationOptions) {x : IdWithIdentifier}
    (hx : x ∈ optionTarget o a) : x ∈ optionTarget o b := by
  cases o with
  | objectNameChange => exact regExtends_mem_objectNameChange h hx
  | layered => exact regExtends_mem_layered h hx
  | borderOverflow => exact regExtends_mem_borderOverflow h hx
  | trayAndMultiWindow => exact regExtends_mem_tray h hx
  | force => exact regExtends_mem_manage h hx

theorem mergeFloatRules_extends (compile : String → Option String)
    (rules : List IdWithIdentifier) (rs : Registries) :
    RegExtends rs (mergeFloatRules compile rules rs).1 := by
  obtain ⟨ext, hext⟩ :=
    mergeIdentifiers_extends compile rules rs.float rs.regexCache
  exact ⟨⟨ext, hext⟩, ⟨[], by simp [mergeFloatRules, mergeManageRules, mergeObjectNameChangeRules, mergeLayeredRules, mergeBorderOverflowRules, mergeTrayRules]⟩, ⟨[], by simp [mergeFloatRules, mergeManageRules, mergeObjectNameChangeRules, mergeLayeredRules, mergeBorderOverflowRules, mergeTrayRules]⟩, ⟨[], by simp [mergeFloatRules, mergeManageRules, mergeObjectNameChangeRules, mergeLayeredRules, mergeBorderOverflowRules, mergeTrayRules]⟩,
    ⟨[], by simp [mergeFloatRules, mergeManageRules, mergeObjectNameChangeRules, mergeLayeredRules, mergeBorderOverflowRules, mergeTrayRules]⟩, ⟨[], by simp [mergeFloatRules, mergeManageRules, mergeObjectNameChangeRules, mergeLayeredRules, mergeBorderOverflowRules, mergeTrayRules]⟩⟩

theorem mergeManageRules_extends (compile : String → Option String)
    (rules : List IdWithIdentifier) (rs : Registries) :
    RegExtends rs (mergeManageRules compile rules rs).1 := by
  obtain ⟨ext, hext⟩ :=
    mergeIdentifiers_extends compile rules rs.manage rs.regexCache
  exact ⟨⟨[], by simp [mergeFloatRules, mergeManageRules, mergeObjectNameChangeRules, mergeLayeredRules, mergeBorderOverflowRules, mergeTrayRules]⟩, ⟨ext, hext⟩, ⟨[], by simp [mergeFloatRules, mergeManageRules, mergeObjectNameChangeRules, mergeLayeredRules, mergeBorderOverflowRules, mergeTrayRules]⟩, ⟨[], by simp [mergeFloatRules, mergeManageRules, mergeObjectNameChangeRules, mergeLayeredRules, mergeBorderOverflowRules, mergeTrayRules]⟩,
    ⟨[], by simp [mergeFloatRules, mergeManageRules, mergeObjectNameChangeRules, mergeLayeredRules, mergeBorderOverflowRules, mergeTrayRules]⟩, ⟨[], by simp [mergeFloatRules, mergeManageRules, mergeObjectNameChangeRules, mergeLayeredRules, mergeBorderOverflowRules, mergeTrayRules]⟩⟩

theorem mergeObjectNameChangeRules_extends (compile : String → Option String)
    (rules : List IdWithIdentifier) (rs : Registries) :
    RegExtends rs (mergeObjectNameChangeRules compile rules rs).1 := by
  obtain ⟨ext, hext⟩ :=
    mergeIdentifiers_extends compile rules rs.objectNameChange rs.regexCache
  exact ⟨⟨[], by simp [mergeFloatRules, mergeManageRules, mergeObjectNameChangeRules, mergeLayeredRules, mergeBorderOverflowRules, mergeTrayRules]⟩, ⟨[], by simp [mergeFloatRules, mergeManageRules, mergeObjectNameChangeRules, mergeLayeredRules, mergeBorderOverflowRules, mergeTrayRules]⟩, ⟨[], by simp [mergeFloatRules, mergeManageRules, mergeObjectNameChangeRules, mergeLayeredRules, mergeBorderOverflowRules, mergeTrayRules]⟩, ⟨[], by simp [mergeFloatRules, mergeManageRules, mergeObjectNameChangeRules, mergeLayeredRules, mergeBorderOverflowRules, mergeTrayRules]⟩,
    ⟨ext, hext⟩, ⟨[], by simp [mergeFloatRules, mergeManageRules, mergeObjectNameChangeRules, mergeLayeredRules, mergeBorderOverflowRules, mergeTrayRules]⟩⟩

theorem mergeLayeredRules_extends (compile : String → Option String)
    (rules : List IdWithIdentifier) (rs : Registries) :
    RegExtends rs (mergeLayeredRules compile rules rs).1 := by
  obtain ⟨ext, hext⟩ :=
    mergeIdentifiers_extends compile rules rs.layered rs.regexCache
  exact ⟨⟨[], by simp [mergeFloatRules, mergeManageRules, mergeObjectNameChangeRules, mergeLayeredRules, mergeBorderOverflowRules, mergeTrayRules]⟩, ⟨[], by simp [mergeFloatRules, mergeManageRules, mergeObjectNameChangeRules, mergeLayeredRules, mergeBorderOverflowRules, mergeTrayRules]⟩, ⟨[], by simp [mergeFloatRules, mergeManageRules, mergeObjectNameChangeRules, mergeLayeredRules, mergeBorderOverflowRules, mergeTrayRules]⟩, ⟨[], by simp [mergeFloatRules, mergeManageRules, mergeObjectNameChangeRules, mergeLayeredRules, mergeBorderOverflowRules, mergeTrayRules]⟩,
    ⟨[], by simp [mergeFloatRules, mergeManageRules, mergeObjectNameChangeRules, mergeLayeredRules, mergeBorderOverflowRules, mergeTrayRules]⟩, ⟨ext, hext⟩⟩

theorem mergeBorderOverflowRules_extends (compile : String → Option String)
    (rules : List IdWithIdentifier) (rs : Registries) :
    RegExtends rs (mergeBorderOverflowRules compile rules rs).1 := by
  obtain ⟨ext, hext⟩ :=
    mergeIdentifiers_extends compile rules rs.borderOverflow rs.regexCache
  exact ⟨⟨[], by simp [mergeFloatRules, mergeManageRules, mergeObjectNameChangeRules, mergeLayeredRules, mergeBorderOverflowRules, mergeTrayRules]⟩, ⟨[], by simp [mergeFloatRules, mergeManageRules, mergeObjectNameChangeRules, mergeLayeredRules, mergeBorderOverflowRules, mergeTrayRules]⟩, ⟨[], by simp [mergeFloatRules, mergeManageRules, mergeObjectNameChangeRules, mergeLayeredRules, mergeBorderOverflowRules, mergeTrayRules]⟩, ⟨ext, hext⟩,
    ⟨[], by simp [mergeFloatRules, mergeManageRules, mergeObjectNameChangeRules, mergeLayeredRules, mergeBorderOverflowRules, mergeTrayRules]⟩, ⟨[], by simp [mergeFloatRules, mergeManageRules, mergeObjectNameChangeRules, mergeLayeredRules, mergeBorderOverflowRules, mergeTrayRules]⟩⟩

theorem mergeTrayRules_extends (compile : String → Option String)
    (rules : List IdWithIdentifier) (rs : Registries) :
    RegExtends rs (mergeTrayRules compile rules rs).1 := by
  obtain ⟨ext, hext⟩ :=
    mergeIdentifiers_extends compile rules rs.trayAndMultiWindow rs.regexCache
  exact ⟨⟨[], by simp [mergeFloatRules, mergeManageRules, mergeObjectNameChangeRules, mergeLayeredRules, mergeBorderOverflowRules, mergeTrayRules]⟩, ⟨[], by simp [mergeFloatRules, mergeManageRules, mergeObjectNameChangeRules, mergeLayeredRules, mergeBorderOverflowRules, mergeTrayRules]⟩, ⟨ext, hext⟩, ⟨[], by simp [mergeFloatRules, mergeManageRules, mergeObjectNameChangeRules, mergeLayeredRules, mergeBorderOverflowRules, mergeTrayRules]⟩,
    ⟨[], by simp [mergeFloatRules, mergeManageRules, mergeObjectNameChangeRules, mergeLayeredRules, mergeBorderOverflowRules, mergeTrayRules]⟩, ⟨[], by simp [mergeFloatRules, mergeManageRules, mergeObjectNameChangeRules, mergeLayeredRules, mergeBorderOverflowRules, mergeTrayRules]⟩⟩

theorem mergeFloatRules_mem (compile : String → Option String)
    (rules : List IdWithIdentifier) (rs : Registries)
    (h : (mergeFloatRules compile rules rs).2 = true) :
    ∀ r ∈ rules, normalizeIdentifier r
      ∈ (mergeFloatRules compile rules rs).1.float := fun r hr =>
  mergeIdentifiers_mem_of_ok compile rules rs.float rs.regexCache h r hr

theorem mergeManageRules_mem (compile : String → Option String)
    (rules : List IdWithIdentifier) (rs : Registries)
    (h : (mergeManageRules compile rules rs).2 = true) :
    ∀ r ∈ rules, normalizeIdentifier r
      ∈ (mergeManageRules compile rules rs).1.manage := fun r hr =>
  mergeIdentifiers_mem_of_ok compile rules rs.manage rs.regexCache h r hr

theorem mergeObjectNameChangeRules_mem (compile : String → Option String)
    (rules : List IdWithIdentifier) (rs : Registries)
    (h : (mergeObjectNameChangeRules compile rules rs).2 = true) :
    ∀ r ∈ rules, normalizeIdentifier r
      ∈ (mergeObjectNameChangeRules compile rules rs).1.objectNameChange :=
  fun r hr =>
  mergeIdentifiers_mem_of_ok compile rules rs.objectNameChange rs.regexCache
    h r hr

theorem mergeLayeredRules_mem (compile : String → Option String)
    (rules : List IdWithIdentifier) (rs : Registries)
    (h : (mergeLayeredRules compile rules rs).2 = true) :
    ∀ r ∈ rules, normalizeIdentifier r
      ∈ (mergeLayeredRules compile rules rs).1.layered := fun r hr =>
  mergeIdentifiers_mem_of_ok compile rules rs.layered rs.regexCache h r hr

theorem mergeBorderOverflowRules_mem (compile : String → Option String)
    (rules : List IdWithIdentifier) (rs : Registries)
    (h : (mergeBorderOverflowRules compile rules rs).2 = true) :
    ∀ r ∈ rules, normalizeIdentifier r
      ∈ (mergeBorderOverflowRules compile rules rs).1.borderOverflow :=
  fun r hr =>
  mergeIdentifiers_mem_of_ok compile rules rs.borderOverflow rs.regexCache
    h r hr

theorem mergeTrayRules_mem (compile : String → Option String)
    (rules : List IdWithIdentifier) (rs : Registries)
    (h : (mergeTrayRules compile rules rs).2 = true) :
    ∀ r ∈ rules, normalizeIdentifier r
      ∈ (mergeTrayRules compile rules rs).1.trayAndMultiWindow := fun r hr =>
  mergeIdentifiers_mem_of_ok compile rules rs.trayAndMultiWindow rs.regexCache
    h r hr

theorem mergeFloatRules_skip (compile : String → Option String)
    (rules : List IdWithIdentifier) (rs : Registries)
    (h : ∀ r ∈ rules, normalizeIdentifier r ∈ rs.float) :
    mergeFloatRules compile rules rs = (rs, true) := by
  simp only [mergeFloatRules]
  rw [mergeIdentifiers_skip_all compile rules rs.float rs.regexCache h]

theorem mergeManageRules_skip (compile : String → Option String)
    (rules : List IdWithIdentifier) (rs : Registries)
    (h : ∀ r ∈ rules, normalizeIdentifier r ∈ rs.manage) :
    mergeManageRules compile rules rs = (rs, true) := by
  simp only [mergeManageRules]
  rw [mergeIdentifiers_skip_all compile rules rs.manage rs.regexCache h]

theorem mergeObjectNameChangeRules_skip (compile : String → Option String)
    (rules : List IdWithIdentifier) (rs : Registries)
    (h : ∀ r ∈ rules, normalizeIdentifier r ∈ rs.objectNameChange) :
    mergeObjectNameChangeRules compile rules rs = (rs, true) := by
  simp only [mergeObjectNameChangeRules]
  rw [mergeIdentifiers_skip_all compile rules rs.objectNameChange
    rs.regexCache h]

theorem mergeLayeredRules_skip (compile : String → Option String)
    (rules : List IdWithIdentifier) (rs : Registries)
    (h : ∀ r ∈ rules, normalizeIdentifier r ∈ rs.layered) :
    mergeLayeredRules compile rules rs = (rs, true) := by
  simp only [mergeLayeredRules]
  rw [mergeIdentifiers_skip_all compile rules rs.layered rs.regexCache h]

theorem mergeBorderOverflowRules_skip (compile : String → Option String)
    (rules : List IdWithIdentifier) (rs : Registries)
    (h : ∀ r ∈ rules, normalizeIdentifier r ∈ rs.borderOverflow) :
    mergeBorderOverflowRules compile rules rs = (rs, true) := by
  simp only [mergeBorderOverflowRules]
  rw [mergeIdentifiers_skip_all compile rules rs.borderOverflow rs.regexCache h]

theorem mergeTrayRules_skip (compile : String → Option String)
    (rules : List IdWithIdentifier) (rs : Registries)
    (h : ∀ r ∈ rules, normalizeIdentifier r ∈ rs.trayAndMultiWindow) :
    mergeTrayRules compile rules rs = (rs, true) := by
  simp only [mergeTrayRules]
  rw [mergeIdentifiers_skip_all compile rules rs.trayAndMultiWindow
    rs.regexCache h]

theorem mergeFloatRules_nodup (compile : String → Option String)
    (rules : List IdWithIdentifier) (rs : Registries) (h : AllNodup rs) :
    AllNodup (mergeFloatRules compile rules rs).1 := by
  obtain ⟨h1, h2, h3, h4, h5, h6⟩ := h
  exact ⟨mergeIdentifiers_nodup compile rules rs.float rs.regexCache h1,
    h2, h3, h4, h5, h6⟩

theorem mergeManageRules_nodup (compile : String → Option String)
    (rules : List IdWithIdentifier) (rs : Registries) (h : AllNodup rs) :
    AllNodup (mergeManageRules compile rules rs).1 := by
  obtain ⟨h1, h2, h3, h4, h5, h6⟩ := h
  exact ⟨h1, mergeIdentifiers_nodup compile rules rs.manage rs.regexCache h2,
    h3, h4, h5, h6⟩

theorem mergeObjectNameChangeRules_nodup (compile : String → Option String)
    (rules : List IdWithIdentifier) (rs : Registries) (h : AllNodup rs) :
    AllNodup (mergeObjectNameChangeRules compile rules rs).1 := by
  obtain ⟨h1, h2, h3, h4, h5, h6⟩ := h
  exact ⟨h1, h2, h3, h4,
    mergeIdentifiers_nodup compile rules rs.objectNameChange rs.regexCache h5,
    h6⟩

theorem mergeLayeredRules_nodup (compile : String → Option String)
    (rules : List IdWithIdentifier) (rs : Registries) (h : AllNodup rs) :
    AllNodup (mergeLayeredRules compile rules rs).1 := by
  obtain ⟨h1, h2, h3, h4, h5, h6⟩ := h
  exact ⟨h1, h2, h3, h4, h5,
    mergeIdentifiers_nodup compile rules rs.layered rs.regexCache h6⟩

theorem mergeBorderOverflowRules_nodup (compile : String → Option String)
    (rules : List IdWithIdentifier) (rs : Registries) (h : AllNodup rs) :
    AllNodup (mergeBorderOverflowRules compile rules rs).1 := by
  obtain ⟨h1, h2, h3, h4, h5, h6⟩ := h
  exact ⟨h1, h2, h3,
    mergeIdentifiers_nodup compile rules rs.borderOverflow rs.regexCache h4,
    h5, h6⟩

theorem mergeTrayRules_nodup (compile : String → Option String)
    (rules : List IdWithIdentifier) (rs : Registries) (h : AllNodup rs) :
    AllNodup (mergeTrayRules compile rules rs).1 := by
  obtain ⟨h1, h2, h3, h4, h5, h6⟩ := h
  exact ⟨h1, h2,
    mergeIdentifiers_nodup compile rules rs.trayAndMultiWindow rs.regexCache h3,
    h4, h5, h6⟩

theorem andThen_true (g : Registries → Registries × Bool) (rs : Registries) :
    andThen g (rs, true) = g rs := rfl

theorem andThen_false (g : Registries → Registries × Bool) (rs : Registries) :
    andThen g (rs, false) = (rs, false) := rfl

theorem andThen_ok {g : Registries → Registries × Bool}
    {p : Registries × Bool} (h : (andThen g p).2 = true) : p.2 = true := by
  cases p with
  | mk rs b =>
    cases b with
    | false => exact absurd h (by simp [andThen])
    | true => rfl

theorem andThen_eq_of_true (g : Registries → Registries × Bool)
    (p : Registries × Bool) (h : p.2 = true) : andThen g p = g p.1 := by
  cases p with
  | mk rs b =>
    cases b with
    | false => exact absurd h (by simp)
    | true => rfl

theorem andThen_extends (g : Registries → Registries × Bool)
    (hg : ∀ rs, RegExtends rs (g rs).1) (p : Registries × Bool) :
    RegExtends p.1 (andThen g p).1 := by
  cases p with
  | mk rs b =>
    cases b with
    | false => exact regExtends_refl rs
    | true => exact hg rs

theorem andThen_nodup (g : Registries → Registries × Bool)
    (hg : ∀ rs, AllNodup rs → AllNodup (g rs).1) (p : Registries × Bool)
    (hp : AllNodup p.1) : AllNodup (andThen g p).1 := by
  cases p with
  | mk rs b =>
    cases b with
    | false => exact hp
    | true => exact hg rs hp

theorem applyAscOptionStep_extends (compile : String → Option String)
    (o : ApplicationOptions) (ident : IdWithIdentifier) (rs : Registries) :
    RegExtends rs (applyAscOptionStep compile o ident rs).1 := by
  cases o with
  | objectNameChange => exact mergeObjectNameChangeRules_extends compile [ident] rs
  | layered => exact mergeLayeredRules_extends compile [ident] rs
  | borderOverflow => exact mergeBorderOverflowRules_extends compile [ident] rs
  | trayAndMultiWindow => exact mergeTrayRules_extends compile [ident] rs
  | force => exact mergeManageRules_extends compile [ident] rs

theorem applyAscOptionStep_mem (compile : String → Option String)
    (o : ApplicationOptions) (ident : IdWithIdentifier) (rs : Registries)
    (h : (applyAscOptionStep compile o ident rs).2 = true) :
    normalizeIdentifier ident
      ∈ optionTarget o (applyAscOptionStep compile o ident rs).1 := by
  cases o with
  | objectNameChange =>
    exact mergeObjectNameChangeRules_mem compile [ident] rs h ident
      (List.mem_singleton.mpr rfl)
  | layered =>
    exact mergeLayeredRules_mem compile [ident] rs h ident
      (List.mem_singleton.mpr rfl)
  | borderOverflow =>
    exact mergeBorderOverflowRules_mem compile [ident] rs h ident
      (List.mem_singleton.mpr rfl)
  | trayAndMultiWindow =>
    exact mergeTrayRules_mem compile [ident] rs h ident
      (List.mem_singleton.mpr rfl)
  | force =>
    exact mergeManageRules_mem compile [ident] rs h ident
      (List.mem_singleton.mpr rfl)

theorem applyAscOptionStep_skip (compile : String → Option String)
    (o : ApplicationOptions) (ident : IdWithIdentifier) (rs : Registries)
    (h : normalizeIdentifier ident ∈ optionTarget o rs) :
    applyAscOptionStep compile o ident rs = (rs, true) := by
  cases o with
  | objectNameChange =>
    exact mergeObjectNameChangeRules_skip compile [ident] rs
      (fun r hr => by rw [List.mem_singleton.mp hr]; exact h)
  | layered =>
    exact mergeLayeredRules_skip compile [ident] rs
      (fun r hr => by rw [List.mem_singleton.mp hr]; exact h)
  | borderOverflow =>
    exact mergeBorderOverflowRules_skip compile [ident] rs
      (fun r hr => by rw [List.mem_singleton.mp hr]; exact h)
  | trayAndMultiWindow =>
    exact mergeTrayRules_skip compile [ident] rs
      (fun r hr => by rw [List.mem_singleton.mp hr]; exact h)
  | force =>
    exact mergeManageRules_skip compile [ident] rs
      (fun r hr => by rw [List.mem_singleton.mp hr]; exact h)

theorem applyAscOptionStep_nodup (compile : String → Option String)
    (o : ApplicationOptions) (ident : IdWithIdentifier) (rs : Registries)
    (h : AllNodup rs) : AllNodup (applyAscOptionStep compile o ident rs).1 := by
  cases o with
  | objectNameChange => exact mergeObjectNameChangeRules_nodup compile [ident] rs h
  | layered => exact mergeLayeredRules_nodup compile [ident] rs h
  | borderOverflow => exact mergeBorderOverflowRules_nodup compile [ident] rs h
  | trayAndMultiWindow => exact mergeTrayRules_nodup compile [ident] rs h
  | force => exact mergeManageRules_nodup compile [ident] rs h

theorem applyAscOptions_extends (compile : String → Option String)
    (opts : List ApplicationOptions) :
    ∀ ident rs, RegExtends rs (applyAscOptions compile opts ident rs).1 := by
  induction opts with
  | nil => intro ident rs; exact regExtends_refl rs
  | cons o rest ih =>
    intro ident rs
    simp only [applyAscOptions]
    cases hstep : (applyAscOptionStep compile o (normalizeIdentifier ident) rs).2
      with
    | false =>
      simp only [hstep, Bool.false_eq_true, if_false]
      exact applyAscOptionStep_extends compile o (normalizeIdentifier ident) rs
    | true =>
      simp only [hstep, if_true]
      exact regExtends_trans
        (applyAscOptionStep_extends compile o (normalizeIdentifier ident) rs)
        (ih (normalizeIdentifier ident) _)

theorem applyAscOptions_merged (compile : String → Option String)
    (opts : List ApplicationOptions) :
    ∀ ident rs, (applyAscOptions compile opts ident rs).2 = true →
      ∀ o ∈ opts, normalizeIdentifier ident
        ∈ optionTarget o (applyAscOptions compile opts ident rs).1 := by
  induction opts with
  | nil => intro ident rs _ o ho; exact absurd ho (List.not_mem_nil o)
  | cons o rest ih =>
    intro ident rs hok o' ho'
    simp only [applyAscOptions] at hok ⊢
    cases hstep : (applyAscOptionStep compile o (normalizeIdentifier ident) rs).2
      with
    | false =>
      rw [hstep] at hok
      simp at hok
    | true =>
      rw [hstep] at hok
      simp only [if_true] at hok
      simp only [hstep, if_true]
      rcases List.mem_cons.mp ho' with rfl | hrest
      · have hmem := applyAscOptionStep_mem compile o'
          (normalizeIdentifier ident) rs hstep
        rw [normalizeIdentifier_idem] at hmem
        exact regExtends_mem_target
          (applyAscOptions_extends compile rest (normalizeIdentifier ident) _)
          o' hmem
      · have := ih (normalizeIdentifier ident) _ hok o' hrest
        rw [normalizeIdentifier_idem] at this
        exact this

theorem applyAscOptions_skip (compile : String → Option String)
    (opts : List ApplicationOptions) :
    ∀ ident rs, (∀ o ∈ opts, normalizeIdentifier ident ∈ optionTarget o rs) →
      applyAscOptions compile opts ident rs = (rs, true) := by
  induction opts with
  | nil => intro ident rs _; rfl
  | cons o rest ih =>
    intro ident rs h
    simp only [applyAscOptions]
    have hstep : applyAscOptionStep compile o (normalizeIdentifier ident) rs
        = (rs, true) := by
      apply applyAscOptionStep_skip
      rw [normalizeIdentifier_idem]
      exact h o (List.mem_cons_self o rest)
    rw [hstep]
    simp only [if_true]
    have := ih (normalizeIdentifier ident) rs fun o' ho' => by
      rw [normalizeIdentifier_idem]
      exact h o' (List.mem_cons_of_mem o ho')
    exact this

theorem applyAscOptions_nodup (compile : String → Option String)
    (opts : List ApplicationOptions) :
    ∀ ident rs, AllNodup rs →
      AllNodup (applyAscOptions compile opts ident rs).1 := by
  induction opts with
  | nil => intro ident rs h; exact h
  | cons o rest ih =>
    intro ident rs h
    simp only [applyAscOptions]
    cases hstep : (applyAscOptionStep compile o (normalizeIdentifier ident) rs).2
      with
    | false =>
      simp only [hstep, Bool.false_eq_true, if_false]
      exact applyAscOptionStep_nodup compile o (normalizeIdentifier ident) rs h
    | true =>
      simp only [hstep, if_true]
      exact ih (normalizeIdentifier ident) _
        (applyAscOptionStep_nodup compile o (normalizeIdentifier ident) rs h)

theorem entryMergedIn_mono {e : ApplicationConfiguration}
    {a b : Registries} (hab : RegExtends a b) (h : EntryMergedIn e a) :
    EntryMergedIn e b :=
  ⟨fun f hf => regExtends_mem_float hab (h.1 f hf),
   fun o ho => regExtends_mem_target hab o (h.2 o ho)⟩

theorem applyAscEntry_extends (compile : String → Option String)
    (e : ApplicationConfiguration) (rs : Registries) :
    RegExtends rs (applyAscEntry compile e rs).1 := by
  unfold applyAscEntry
  exact regExtends_trans
    (mergeFloatRules_extends compile
      ((e.float_identifiers.getD []).map stripComment) rs)
    (andThen_extends _
      (fun x => applyAscOptions_extends compile (e.options.getD [])
        e.identifier x) _)

theorem applyAscEntry_merged (compile : String → Option String)
    (e : ApplicationConfiguration) (rs : Registries)
    (h : (applyAscEntry compile e rs).2 = true) :
    EntryMergedIn e (applyAscEntry compile e rs).1 := by
  unfold applyAscEntry at h ⊢
  have hp : (mergeFloatRules compile
      ((e.float_identifiers.getD []).map stripComment) rs).2 = true :=
    andThen_ok h
  rw [andThen_eq_of_true _ _ hp] at h ⊢
  constructor
  · intro f hf
    have hmem := mergeFloatRules_mem compile
      ((e.float_identifiers.getD []).map stripComment) rs hp f hf
    exact regExtends_mem_float
      (applyAscOptions_extends compile (e.options.getD []) e.identifier _) hmem
  · intro o ho
    exact applyAscOptions_merged compile (e.options.getD []) e.identifier _
      h o ho

theorem applyAscEntry_skip (compile : String → Option String)
    (e : ApplicationConfiguration) (rs : Registries)
    (h : EntryMergedIn e rs) : applyAscEntry compile e rs = (rs, true) := by
  unfold applyAscEntry
  rw [mergeFloatRules_skip compile
    ((e.float_identifiers.getD []).map stripComment) rs h.1]
  rw [andThen_true]
  exact applyAscOptions_skip compile (e.options.getD []) e.identifier rs h.2

theorem applyAscEntry_nodup (compile : String → Option String)
    (e : ApplicationConfiguration) (rs : Registries) (h : AllNodup rs) :
    AllNodup (applyAscEntry compile e rs).1 := by
  unfold applyAscEntry
  exact andThen_nodup _
    (fun x hx => applyAscOptions_nodup compile (e.options.getD [])
      e.identifier x hx) _
    (mergeFloatRules_nodup compile
      ((e.float_identifiers.getD []).map stripComment) rs h)

theorem applyAscEntries_extends (compile : String → Option String)
    (es : List ApplicationConfiguration) :
    ∀ rs, RegExtends rs (applyAscEntries compile es rs).1 := by
  induction es with
  | nil => intro rs; exact regExtends_refl rs
  | cons e rest ih =>
    intro rs
    simp only [applyAscEntries]
    cases hq : (applyAscEntry compile e rs).2 with
    | false =>
      simp only [hq, Bool.false_eq_true, if_false]
      exact applyAscEntry_extends compile e rs
    | true =>
      simp only [hq, if_true]
      exact regExtends_trans (applyAscEntry_extends compile e rs) (ih _)

theorem applyAscEntries_merged (compile : String → Option String)
    (es : List ApplicationConfiguration) :
    ∀ rs, (applyAscEntries compile es rs).2 = true →
      ∀ e ∈ es, EntryMergedIn e (applyAscEntries compile es rs).1 := by
  induction es with
  | nil => intro rs _ e he; exact absurd he (List.not_mem_nil e)
  | cons e0 rest ih =>
    intro rs hok e he
    simp only [applyAscEntries] at hok ⊢
    cases hq : (applyAscEntry compile e0 rs).2 with
    | false => rw [hq] at hok; simp at hok
    | true =>
      rw [hq] at hok
      simp only [if_true] at hok
      simp only [hq, if_true]
      rcases List.mem_cons.mp he with rfl | hrest
      · exact entryMergedIn_mono (applyAscEntries_extends compile rest _)
          (applyAscEntry_merged compile e rs hq)
      · exact ih _ hok e hrest

theorem applyAscEntries_skip (compile : String → Option String)
    (es : List ApplicationConfiguration) :
    ∀ rs, (∀ e ∈ es, EntryMergedIn e rs) →
      applyAscEntries compile es rs = (rs, true) := by
  induction es with
  | nil => intro rs _; rfl
  | cons e rest ih =>
    intro rs h
    simp only [applyAscEntries]
    rw [applyAscEntry_skip compile e rs (h e (List.mem_cons_self e rest))]
    simp only [if_true]
    exact ih rs fun x hx => h x (List.mem_cons_of_mem e hx)

theorem applyAscEntries_nodup (compile : String → Option String)
    (es : List ApplicationConfiguration) :
    ∀ rs, AllNodup rs → AllNodup (applyAscEntries compile es rs).1 := by
  induction es with
  | nil => intro rs h; exact h
  | cons e rest ih =>
    intro rs h
    simp only [applyAscEntries]
    cases hq : (applyAscEntry compile e rs).2 with
    | false =>
      simp only [hq, Bool.false_eq_true, if_false]
      exact applyAscEntry_nodup compile e rs h
    | true =>
      simp only [hq, if_true]
      exact ih _ (applyAscEntry_nodup compile e rs h)

theorem applyAsc_extends (compile : String → Option String)
    (asc : Option (Except Unit (List ApplicationConfiguration))) :
    ∀ rs, RegExtends rs (applyAsc compile asc rs).1 := by
  intro rs
  cases asc with
  | none => exact regExtends_refl rs
  | some x =>
    cases x with
    | error err => exact regExtends_refl rs
    | ok es => exact applyAscEntries_extends compile es rs

theorem applyAsc_merged (compile : String → Option String)
    (asc : Option (Except Unit (List ApplicationConfiguration)))
    (rs : Registries) (h : (applyAsc compile asc rs).2 = true) :
    AscMergedIn asc (applyAsc compile asc rs).1 := by
  cases asc with
  | none => trivial
  | some x =>
    cases x with
    | error err => exact absurd h (by simp [applyAsc])
    | ok es => exact applyAscEntries_merged compile es rs h

theorem applyAsc_skip (compile : String → Option String)
    (asc : Option (Except Unit (List ApplicationConfiguration)))
    (rs : Registries) (h : AscMergedIn asc rs) :
    applyAsc compile asc rs = (rs, true) := by
  cases asc with
  | none => rfl
  | some x =>
    cases x with
    | error err => exact h.elim
    | ok es => exact applyAscEntries_skip compile es rs h

theorem applyAsc_nodup (compile : String → Option String)
    (asc : Option (Except Unit (List ApplicationConfiguration)))
    (rs : Registries) (h : AllNodup rs) :
    AllNodup (applyAsc compile asc rs).1 := by
  cases asc with
  | none => exact h
  | some x =>
    cases x with
    | error err => exact h
    | ok es => exact applyAscEntries_nodup compile es rs h

theorem applyRules_decompose (compile : String → Option String)
    (cfg : StaticConfig) (rs : Registries)
    (h : (applyRules compile cfg rs).2 = true) :
    ∃ rs1 rs2 rs3 rs4 rs5 rs6,
      mergeFloatRules compile (cfg.float_rules.getD []) rs = (rs1, true) ∧
      mergeManageRules compile (cfg.manage_rules.getD []) rs1 = (rs2, true) ∧
      mergeObjectNameChangeRules compile
        (cfg.object_name_change_applications.getD []) rs2 = (rs3, true) ∧
      mergeLayeredRules compile (cfg.layered_applications.getD []) rs3
        = (rs4, true) ∧
      mergeBorderOverflowRules compile
        (cfg.border_overflow_applications.getD []) rs4 = (rs5, true) ∧
      mergeTrayRules compile
        (cfg.tray_and_multi_window_applications.getD []) rs5 = (rs6, true) ∧
      applyAsc compile cfg.app_specific_configuration rs6
        = ((applyRules compile cfg rs).1, true) := by
  unfold applyRules at h
  cases hp1 : mergeFloatRules compile (cfg.float_rules.getD []) rs with
  | mk rs1 b1 =>
  rw [hp1] at h
  cases b1 with
  | false => simp [andThen] at h
  | true =>
  rw [andThen_true] at h
  cases hp2 : mergeManageRules compile (cfg.manage_rules.getD []) rs1 with
  | mk rs2 b2 =>
  rw [hp2] at h
  cases b2 with
  | false => simp [andThen] at h
  | true =>
  rw [andThen_true] at h
  cases hp3 : mergeObjectNameChangeRules compile
      (cfg.object_name_change_applications.getD []) rs2 with
  | mk rs3 b3 =>
  rw [hp3] at h
  cases b3 with
  | false => simp [andThen] at h
  | true =>
  rw [andThen_true] at h
  cases hp4 : mergeLayeredRules compile (cfg.layered_applications.getD [])
      rs3 with
  | mk rs4 b4 =>
  rw [hp4] at h
  cases b4 with
  | false => simp [andThen] at h
  | true =>
  rw [andThen_true] at h
  cases hp5 : mergeBorderOverflowRules compile
      (cfg.border_overflow_applications.getD []) rs4 with
  | mk rs5 b5 =>
  rw [hp5] at h
  cases b5 with
  | false => simp [andThen] at h
  | true =>
  rw [andThen_true] at h
  cases hp6 : mergeTrayRules compile
      (cfg.tray_and_multi_window_applications.getD []) rs5 with
  | mk rs6 b6 =>
  rw [hp6] at h
  cases b6 with
  | false => simp [andThen] at h
  | true =>
  rw [andThen_true] at h
  cases hp7 : applyAsc compile cfg.app_specific_configuration rs6 with
  | mk rs7 b7 =>
  rw [hp7] at h
  cases b7 with
  | false => simp at h
  | true =>
  have hall : applyRules compile cfg rs = (rs7, true) := by
    unfold applyRules
    rw [hp1, andThen_true, hp2, andThen_true, hp3, andThen_true, hp4,
      andThen_true, hp5, andThen_true, hp6, andThen_true, hp7]
  refine ⟨rs1, rs2, rs3, rs4, rs5, rs6, hp1 ▸ rfl, hp2, hp3, hp4, hp5, hp6, ?_⟩
  rw [hall]
  exact hp7

theorem applyRules_merged (compile : String → Option String)
    (cfg : StaticConfig) (rs : Registries)
    (h : (applyRules compile cfg rs).2 = true) :
    AllMergedIn cfg (applyRules compile cfg rs).1 := by
  obtain ⟨rs1, rs2, rs3, rs4, rs5, rs6, h1, h2, h3, h4, h5, h6, h7⟩ :=
    applyRules_decompose compile cfg rs h
  have e12 : RegExtends rs1 rs2 := by
    have := mergeManageRules_extends compile (cfg.manage_rules.getD []) rs1
    rw [h2] at this; exact this
  have e23 : RegExtends rs2 rs3 := by
    have := mergeObjectNameChangeRules_extends compile
      (cfg.object_name_change_applications.getD []) rs2
    rw [h3] at this; exact this
  have e34 : RegExtends rs3 rs4 := by
    have := mergeLayeredRules_extends compile
      (cfg.layered_applications.getD []) rs3
    rw [h4] at this; exact this
  have e45 : RegExtends rs4 rs5 := by
    have := mergeBorderOverflowRules_extends compile
      (cfg.border_overflow_applications.getD []) rs4
    rw [h5] at this; exact this
  have e56 : RegExtends rs5 rs6 := by
    have := mergeTrayRules_extends compile
      (cfg.tray_and_multi_window_applications.getD []) rs5
    rw [h6] at this; exact this
  have e6r : RegExtends rs6 (applyRules compile cfg rs).1 := by
    have := applyAsc_extends compile cfg.app_specific_configuration rs6
    rw [h7] at this; exact this
  have e1r : RegExtends rs1 (applyRules compile cfg rs).1 :=
    regExtends_trans e12 (regExtends_trans e23 (regExtends_trans e34
      (regExtends_trans e45 (regExtends_trans e56 e6r))))
  have e2r : RegExtends rs2 (applyRules compile cfg rs).1 :=
    regExtends_trans e23 (regExtends_trans e34 (regExtends_trans e45
      (regExtends_trans e56 e6r)))
  have e3r : RegExtends rs3 (applyRules compile cfg rs).1 :=
    regExtends_trans e34 (regExtends_trans e45 (regExtends_trans e56 e6r))
  have e4r : RegExtends rs4 (applyRules compile cfg rs).1 :=
    regExtends_trans e45 (regExtends_trans e56 e6r)
  have e5r : RegExtends rs5 (applyRules compile cfg rs).1 :=
    regExtends_trans e56 e6r
  refine ⟨?_, ?_, ?_, ?_, ?_, ?_, ?_⟩
  · intro r hr
    have := mergeFloatRules_mem compile (cfg.float_rules.getD []) rs
      (by rw [h1]) r hr
    rw [h1] at this
    exact regExtends_mem_float e1r this
  · intro r hr
    have := mergeManageRules_mem compile (cfg.manage_rules.getD []) rs1
      (by rw [h2]) r hr
    rw [h2] at this
    exact regExtends_mem_manage e2r this
  · intro r hr
    have := mergeObjectNameChangeRules_mem compile
      (cfg.object_name_change_applications.getD []) rs2 (by rw [h3]) r hr
    rw [h3] at this
    exact regExtends_mem_objectNameChange e3r this
  · intro r hr
    have := mergeLayeredRules_mem compile
      (cfg.layered_applications.getD []) rs3 (by rw [h4]) r hr
    rw [h4] at this
    exact regExtends_mem_layered e4r this
  · intro r hr
    have := mergeBorderOverflowRules_mem compile
      (cfg.border_overflow_applications.getD []) rs4 (by rw [h5]) r hr
    rw [h5] at this
    exact regExtends_mem_borderOverflow e5r this
  · intro r hr
    have := mergeTrayRules_mem compile
      (cfg.tray_and_multi_window_applications.getD []) rs5 (by rw [h6]) r hr
    rw [h6] at this
    exact regExtends_mem_tray e6r this
  · have := applyAsc_merged compile cfg.app_specific_configuration rs6
      (by rw [h7])
    rw [h7] at this
    exact this

theorem applyRules_skip (compile : String → Option String)
    (cfg : StaticConfig) (rs : Registries) (h : AllMergedIn cfg rs) :
    applyRules compile cfg rs = (rs, true) := by
  obtain ⟨hf, hm, ho, hl, hb, ht, hasc⟩ := h
  unfold applyRules
  rw [mergeFloatRules_skip compile _ rs hf, andThen_true,
    mergeManageRules_skip compile _ rs hm, andThen_true,
    mergeObjectNameChangeRules_skip compile _ rs ho, andThen_true,
    mergeLayeredRules_skip compile _ rs hl, andThen_true,
    mergeBorderOverflowRules_skip compile _ rs hb, andThen_true,
    mergeTrayRules_skip compile _ rs ht, andThen_true,
    applyAsc_skip compile _ rs hasc]

theorem applyRules_nodup (compile : String → Option String)
    (cfg : StaticConfig) (rs : Registries) (h : AllNodup rs) :
    AllNodup (applyRules compile cfg rs).1 := by
  unfold applyRules
  refine andThen_nodup _
    (fun x hx => applyAsc_nodup compile _ x hx) _ ?_
  refine andThen_nodup _
    (fun x hx => mergeTrayRules_nodup compile _ x hx) _ ?_
  refine andThen_nodup _
    (fun x hx => mergeBorderOverflowRules_nodup compile _ x hx) _ ?_
  refine andThen_nodup _
    (fun x hx => mergeLayeredRules_nodup compile _ x hx) _ ?_
  refine andThen_nodup _
    (fun x hx => mergeObjectNameChangeRules_nodup compile _ x hx) _ ?_
  refine andThen_nodup _
    (fun x hx => mergeManageRules_nodup compile _ x hx) _ ?_
  exact mergeFloatRules_nodup compile _ rs h

theorem applyRules_idempotent (compile : String → Option String)
    (cfg : StaticConfig) (rs : Registries)
    (h : (applyRules compile cfg rs).2 = true) :
    applyRules compile cfg (applyRules compile cfg rs).1
      = ((applyRules compile cfg rs).1, true) :=
  applyRules_skip compile cfg (applyRules compile cfg rs).1
    (applyRules_merged compile cfg rs h)

/-- C2 (amended): for every document whose single application from empty
registries succeeds (every Regex id compiles), applying `apply_globals` a
second time yields exactly the same registry contents and the same regex
pattern cache as the single application — a structurally-equal rule is never
appended twice — and after the first application no registry contains two
structurally-equal entries. -/
theorem apply_globals_idempotent (compile : String → Option String)
    (cfg : StaticConfig) (s : GlobalState)
    (hempty : s.regs = emptyRegistries)
    (hok : (applyGlobals compile cfg s).2 = true) :
    ((applyGlobals compile cfg (applyGlobals compile cfg s).1).1.regs
        = (applyGlobals compile cfg s).1.regs
      ∧ (applyGlobals compile cfg (applyGlobals compile cfg s).1).2 = true)
    ∧ AllNodup (applyGlobals compile cfg s).1.regs := by
  obtain ⟨hr1, hb1⟩ := applyGlobals_regs compile cfg s
  obtain ⟨hr2, hb2⟩ :=
    applyGlobals_regs compile cfg (applyGlobals compile cfg s).1
  rw [hb1] at hok
  have hidem := applyRules_idempotent compile cfg s.regs hok
  refine ⟨⟨?_, ?_⟩, ?_⟩
  · rw [hr2, hr1, hidem]
  · rw [hb2, hr1, hidem]
  · rw [hr1]
    apply applyRules_nodup
    rw [hempty]
    exact ⟨List.nodup_nil, List.nodup_nil, List.nodup_nil, List.nodup_nil,
      List.nodup_nil, List.nodup_nil⟩

theorem apply_globals_idempotent_witness :
    baseGlobalState.regs = emptyRegistries ∧
    (applyGlobals specRegexCompile validRulesCfg baseGlobalState).2 = true ∧
    (((applyGlobals specRegexCompile validRulesCfg
          (applyGlobals specRegexCompile validRulesCfg baseGlobalState).1).1.regs
        = (applyGlobals specRegexCompile validRulesCfg baseGlobalState).1.regs
      ∧ (applyGlobals specRegexCompile validRulesCfg
          (applyGlobals specRegexCompile validRulesCfg
            baseGlobalState).1).2 = true)
    ∧ AllNodup (applyGlobals specRegexCompile validRulesCfg
        baseGlobalState).1.regs) :=
  ⟨rfl, rfl, apply_globals_idempotent specRegexCompile validRulesCfg
    baseGlobalState rfl rfl⟩

/-- C2 counterexample: the claim, as stated, quantifies over every rule list.
On the document whose float list is `[badRule, goodRule]`, the first
application from empty registries pushes `badRule` and aborts on its failed
pattern compilation, leaving the float registry `[badRule]`; a second
application skips `badRule` (already present, so its pattern is never
recompiled) and proceeds to append `goodRule`: the two passes yield different
registry contents, so the claim needs the success hypothesis of the amended
statement. -/
theorem rule_merge_second_pass_differs :
    baseGlobalState.regs = emptyRegistries ∧
    (applyGlobals specRegexCompile badThenGoodCfg
        (applyGlobals specRegexCompile badThenGoodCfg
          baseGlobalState).1).1.regs.float
      ≠ (applyGlobals specRegexCompile badThenGoodCfg
          baseGlobalState).1.regs.float ∧
    (applyGlobals specRegexCompile badThenGoodCfg
        baseGlobalState).1.regs.float = [badRule] ∧
    (applyGlobals specRegexCompile badThenGoodCfg
        (applyGlobals specRegexCompile badThenGoodCfg
          baseGlobalState).1).1.regs.float = [badRule, goodRule] :=
  ⟨rfl, by decide, rfl, rfl⟩

/-! ## C3: workspace-rule relocation pruning -/

theorem modifyIdx_length (f : α → α) (i : Nat) (l : List α) :
    (modifyIdx f i l).length = l.length := by
  induction l generalizing i with
  | nil => cases i <;> rfl
  | cons a as ih =>
    cases i with
    | zero => rfl
    | succ n => simp [modifyIdx, ih]

theorem modifyIdx_get_ne (f : α → α) (i j : Nat) (l : List α) (h : j ≠ i) :
    (modifyIdx f i l)[j]? = l[j]? := by
  induction l generalizing i j with
  | nil => cases i <;> rfl
  | cons a as ih =>
    cases i with
    | zero =>
      cases j with
      | zero => exact absurd rfl h
      | succ m => simp [modifyIdx]
    | succ n =>
      cases j with
      | zero => simp [modifyIdx]
      | succ m =>
        simp only [modifyIdx, List.getElem?_cons_succ]
        exact ih n m fun hh => h (by rw [hh])

theorem modifyIdx_get_eq (f : α → α) (i : Nat) (l : List α) :
    (modifyIdx f i l)[i]? = (l[i]?).map f := by
  induction l generalizing i with
  | nil => cases i <;> rfl
  | cons a as ih =>
    cases i with
    | zero => simp [modifyIdx]
    | succ n => simp [modifyIdx, ih]

theorem optOfList_getD (l : List α) : (optOfList l).getD [] = l := by
  unfold optOfList
  by_cases h : l.isEmpty
  · rw [if_pos h]
    rw [List.isEmpty_iff.mp h]
    rfl
  · rw [if_neg h]
    rfl

theorem pruneRule_shape (M : List MonitorConfig) (t : Nat × Nat × String)
    (i : Nat) :
    ((pruneRule M t)[i]?).map monShape = (M[i]?).map monShape := by
  unfold pruneRule
  simp only []
  by_cases hit : i = t.1
  · rw [hit, modifyIdx_get_eq]
    cases hMi : M[t.1]? with
    | none => rfl
    | some mon => simp [monShape, modifyIdx_length]
  · rw [modifyIdx_get_ne _ _ _ _ hit]

theorem foldl_pruneRule_shape (ts : List (Nat × Nat × String)) :
    ∀ (M : List MonitorConfig) (i : Nat),
      ((ts.foldl pruneRule M)[i]?).map monShape = (M[i]?).map monShape := by
  induction ts with
  | nil => intro M i; rfl
  | cons t rest ih =>
    intro M i
    simp only [List.foldl_cons]
    rw [ih, pruneRule_shape]

theorem pruneRule_absent {M : List MonitorConfig} {m w : Nat} {ruleId : String}
    (h : RuleIdAbsentAt M m w ruleId) (t : Nat × Nat × String) :
    RuleIdAbsentAt (pruneRule M t) m w ruleId := by
  obtain ⟨tm, tw, tid⟩ := t
  intro mon ws hmon hws
  unfold pruneRule at hmon
  simp only [] at hmon
  by_cases hm : m = tm
  · subst hm
    rw [modifyIdx_get_eq] at hmon
    cases hM : M[m]? with
    | none => rw [hM] at hmon; exact absurd hmon (by simp)
    | some mon0 =>
      rw [hM] at hmon
      simp only [Option.map_some', Option.some.injEq] at hmon
      subst hmon
      simp only [] at hws
      by_cases hw : w = tw
      · subst hw
        rw [modifyIdx_get_eq] at hws
        cases hW : mon0.workspaces[w]? with
        | none => rw [hW] at hws; exact absurd hws (by simp)
        | some ws0 =>
          rw [hW] at hws
          simp only [Option.map_some', Option.some.injEq] at hws
          subst hws
          obtain ⟨hperm, hinit⟩ := h mon0 ws0 hM hW
          constructor
          · intro r hr
            apply hperm r
            simp only [] at hr
            cases hwr : ws0.workspace_rules with
            | none => rw [hwr] at hr; exact absurd hr (by simp)
            | some l =>
              rw [hwr] at hr
              simp only [Option.map_some', Option.getD_some] at hr
              exact List.mem_of_mem_filter hr
          · intro r hr
            apply hinit r
            simp only [] at hr
            cases hwr : ws0.initial_workspace_rules with
            | none => rw [hwr] at hr; exact absurd hr (by simp)
            | some l =>
              rw [hwr] at hr
              simp only [Option.map_some', Option.getD_some] at hr
              exact List.mem_of_mem_filter hr
      · rw [modifyIdx_get_ne _ _ _ _ hw] at hws
        exact h mon0 ws hM hws
  · rw [modifyIdx_get_ne _ _ _ _ hm] at hmon
    exact h mon ws hmon hws

theorem pruneRule_establishes (M : List MonitorConfig) (m w : Nat)
    (ruleId : String) :
    RuleIdAbsentAt (pruneRule M (m, w, ruleId)) m w ruleId := by
  intro mon ws hmon hws
  unfold pruneRule at hmon
  simp only [] at hmon
  rw [modifyIdx_get_eq] at hmon
  cases hM : M[m]? with
  | none => rw [hM] at hmon; exact absurd hmon (by simp)
  | some mon0 =>
    rw [hM] at hmon
    simp only [Option.map_some', Option.some.injEq] at hmon
    subst hmon
    simp only [] at hws
    rw [modifyIdx_get_eq] at hws
    cases hW : mon0.workspaces[w]? with
    | none => rw [hW] at hws; exact absurd hws (by simp)
    | some ws0 =>
      rw [hW] at hws
      simp only [Option.map_some', Option.some.injEq] at hws
      subst hws
      constructor
      · intro r hr
        simp only [] at hr
        cases hwr : ws0.workspace_rules with
        | none => rw [hwr] at hr; exact absurd hr (by simp)
        | some l =>
          rw [hwr] at hr
          simp only [Option.map_some', Option.getD_some] at hr
          exact of_decide_eq_true (List.mem_filter.mp hr).2
      · intro r hr
        simp only [] at hr
        cases hwr : ws0.initial_workspace_rules with
        | none => rw [hwr] at hr; exact absurd hr (by simp)
        | some l =>
          rw [hwr] at hr
          simp only [Option.map_some', Option.getD_some] at hr
          exact of_decide_eq_true (List.mem_filter.mp hr).2

theorem foldl_pruneRule_absent (ts : List (Nat × Nat × String)) :
    ∀ (M : List MonitorConfig) {m w : Nat} {ruleId : String},
      RuleIdAbsentAt M m w ruleId →
      RuleIdAbsentAt (ts.foldl pruneRule M) m w ruleId := by
  induction ts with
  | nil => intro M m w ruleId h; exact h
  | cons t rest ih =>
    intro M m w ruleId h
    simp only [List.foldl_cons]
    exact ih (pruneRule M t) (pruneRule_absent h t)

theorem foldl_pruneRule_removes (ts : List (Nat × Nat × String)) :
    ∀ (M : List MonitorConfig) {m w : Nat} {ruleId : String},
      (m, w, ruleId) ∈ ts →
      RuleIdAbsentAt (ts.foldl pruneRule M) m w ruleId := by
  induction ts with
  | nil => intro M m w ruleId h; exact absurd h (List.not_mem_nil _)
  | cons t rest ih =>
    intro M m w ruleId h
    simp only [List.foldl_cons]
    rcases List.mem_cons.mp h with heq | hrest
    · rw [← heq]
      exact foldl_pruneRule_absent rest (pruneRule M (m, w, ruleId))
        (pruneRule_establishes M m w ruleId)
    · exact ih (pruneRule M t) hrest

theorem toRemoveWorkspace_mem_init (registry : List WsRuleEntry) (i j : Nat)
    (w : WorkspaceConfig) (r : IdWithIdentifier)
    (hr : r ∈ w.initial_workspace_rules.getD [])
    (e : WsRuleEntry) (he : e ∈ registry) (hid : r.id = e.id)
    (hne : e.monitor ≠ i ∨ e.workspace ≠ j) :
    (i, j, r.id) ∈ toRemoveWorkspace registry i j w := by
  unfold toRemoveWorkspace
  apply List.mem_append_left
  rw [List.mem_flatMap]
  refine ⟨r, hr, ?_⟩
  rw [List.mem_flatMap]
  refine ⟨e, he, ?_⟩
  rw [if_pos ⟨hid, hne⟩]
  exact List.mem_singleton.mpr rfl

theorem toRemoveWorkspace_mem_ws (registry : List WsRuleEntry) (i j : Nat)
    (w : WorkspaceConfig) (r : IdWithIdentifier)
    (hr : r ∈ w.workspace_rules.getD [])
    (e : WsRuleEntry) (he : e ∈ registry) (hid : r.id = e.id)
    (hne : e.monitor ≠ i ∨ e.workspace ≠ j) :
    (i, j, r.id) ∈ toRemoveWorkspace registry i j w := by
  unfold toRemoveWorkspace
  apply List.mem_append_right
  rw [List.mem_flatMap]
  refine ⟨r, hr, ?_⟩
  rw [List.mem_flatMap]
  refine ⟨e, he, ?_⟩
  rw [if_pos ⟨hid, hne⟩]
  exact List.mem_singleton.mpr rfl

theorem toRemoveMonitor_mem (registry : List WsRuleEntry) (i : Nat)
    (ws : List WorkspaceConfig) :
    ∀ (j k : Nat) (w : WorkspaceConfig) (x : Nat × Nat × String),
      ws[k]? = some w → x ∈ toRemoveWorkspace registry i (j + k) w →
      x ∈ toRemoveMonitor registry i j ws := by
  induction ws with
  | nil => intro j k w x hk; exact absurd hk (by simp)
  | cons w0 rest ih =>
    intro j k w x hk hx
    cases k with
    | zero =>
      simp only [List.getElem?_cons_zero, Option.some.injEq] at hk
      subst hk
      unfold toRemoveMonitor
      apply List.mem_append_left
      simpa using hx
    | succ n =>
      simp only [List.getElem?_cons_succ] at hk
      unfold toRemoveMonitor
      apply List.mem_append_right
      apply ih (j + 1) n w x hk
      rw [show j + 1 + n = j + (n + 1) by omega]
      exact hx

theorem toRemoveAll_mem (registry : List WsRuleEntry)
    (ms : List MonitorConfig) :
    ∀ (i k : Nat) (m : MonitorConfig) (x : Nat × Nat × String),
      ms[k]? = some m →
      x ∈ toRemoveMonitor registry (i + k) 0 m.workspaces →
      x ∈ toRemoveAll registry i ms := by
  induction ms with
  | nil => intro i k m x hk; exact absurd hk (by simp)
  | cons m0 rest ih =>
    intro i k m x hk hx
    cases k with
    | zero =>
      simp only [List.getElem?_cons_zero, Option.some.injEq] at hk
      subst hk
      unfold toRemoveAll
      apply List.mem_append_left
      simpa using hx
    | succ n =>
      simp only [List.getElem?_cons_succ] at hk
      unfold toRemoveAll
      apply List.mem_append_right
      apply ih (i + 1) n m x hk
      rw [show i + 1 + n = i + (n + 1) by omega]
      exact hx

theorem workspaceRulesFromRegistry_mem_init (registry : List WsRuleEntry)
    (e : WsRuleEntry) (he : e ∈ registry) (hexe : strEndsWith e.id "exe" = true)
    (hinit : e.isInitial = true) :
    ({ kind := ApplicationIdentifier.exe, id := e.id, matching_strategy := none }
      : IdWithIdentifier) ∈ (workspaceRulesFromRegistry registry).1 := by
  unfold workspaceRulesFromRegistry
  apply List.mem_map.mpr
  refine ⟨e, List.mem_filter.mpr ⟨he, ?_⟩, rfl⟩
  rw [hexe, hinit]
  rfl

theorem workspaceRulesFromRegistry_mem_ws (registry : List WsRuleEntry)
    (e : WsRuleEntry) (he : e ∈ registry) (hexe : strEndsWith e.id "exe" = true)
    (hinit : e.isInitial = false) :
    ({ kind := ApplicationIdentifier.exe, id := e.id, matching_strategy := none }
      : IdWithIdentifier) ∈ (workspaceRulesFromRegistry registry).2 := by
  unfold workspaceRulesFromRegistry
  apply List.mem_map.mpr
  refine ⟨e, List.mem_filter.mpr ⟨he, ?_⟩, rfl⟩
  rw [hexe, hinit]
  rfl

theorem workspaceRulesFromRegistry_id_of_mem (registry : List WsRuleEntry)
    (r : IdWithIdentifier)
    (h : r ∈ (workspaceRulesFromRegistry registry).1
      ∨ r ∈ (workspaceRulesFromRegistry registry).2) :
    ∃ e ∈ registry, r.id = e.id ∧ strEndsWith e.id "exe" = true := by
  unfold workspaceRulesFromRegistry at h
  rcases h with h | h
  · obtain ⟨e, hef, heq⟩ := List.mem_map.mp h
    have hf := List.mem_filter.mp hef
    have hh := hf.2
    rw [Bool.and_eq_true] at hh
    exact ⟨e, hf.1, by rw [← heq], hh.1⟩
  · obtain ⟨e, hef, heq⟩ := List.mem_map.mp h
    have hf := List.mem_filter.mp hef
    have hh := hf.2
    rw [Bool.and_eq_true] at hh
    exact ⟨e, hf.1, by rw [← heq], hh.1⟩

/-- C3: in a document derived from live window-manager state, if the
workspace-rule registry binds a rule id to coordinate (monitor, workspace),
then after the pruning pass that id appears in neither the permanent nor the
initial rule list of any workspace snapshot at a different coordinate: no
identifier is bound to two workspaces simultaneously in the round-tripped
document. -/
theorem workspace_rule_relocation_pruned (defaults : Int × Int)
    (live : List LiveMonitor) (registry : List WsRuleEntry)
    (e : WsRuleEntry) (he : e ∈ registry) (m' w' : Nat)
    (hne : (m', w') ≠ (e.monitor, e.workspace))
    (mon : MonitorConfig) (ws : WorkspaceConfig)
    (hmon : (staticConfigMonitors defaults live registry)[m']? = some mon)
    (hws : mon.workspaces[w']? = some ws) :
    (∀ r ∈ ws.workspace_rules.getD [], r.id ≠ e.id) ∧
    (∀ r ∈ ws.initial_workspace_rules.getD [], r.id ≠ e.id) := by
  unfold staticConfigMonitors pruneWorkspaceRules at hmon
  by_cases hexe : strEndsWith e.id "exe" = true
  · -- the id round-trips; its occurrences away from (e.monitor, e.workspace)
    -- have been recorded in to_remove and pruned
    have hshape := foldl_pruneRule_shape
      (toRemoveAll registry 0 (live.map (monitorConfigFromLive defaults registry)))
      (live.map (monitorConfigFromLive defaults registry)) m'
    rw [hmon] at hshape
    cases hUm : (live.map (monitorConfigFromLive defaults registry))[m']? with
    | none => rw [hUm] at hshape; exact absurd hshape (by simp)
    | some mon0 =>
      rw [hUm] at hshape
      simp only [Option.map_some', Option.some.injEq] at hshape
      have hlt : w' < mon0.workspaces.length := by
        by_contra hge
        push_neg at hge
        have hlen : mon.workspaces.length ≤ w' := by
          unfold monShape at hshape
          omega
        rw [List.getElem?_eq_none hlen] at hws
        exact absurd hws (by simp)
      obtain ⟨ws0, hWs0⟩ : ∃ ws0, mon0.workspaces[w']? = some ws0 :=
        ⟨_, List.getElem?_eq_getElem hlt⟩
      have hUm0 := hUm
      rw [List.getElem?_map] at hUm0
      cases hlm : live[m']? with
      | none => rw [hlm] at hUm0; exact absurd hUm0 (by simp)
      | some lm =>
        rw [hlm] at hUm0
        simp only [Option.map_some', Option.some.injEq] at hUm0
        have hWs0' := hWs0
        rw [← hUm0] at hWs0'
        unfold monitorConfigFromLive at hWs0'
        simp only [List.getElem?_map] at hWs0'
        cases hlw : lm.workspaces[w']? with
        | none => rw [hlw] at hWs0'; exact absurd hWs0' (by simp)
        | some lw =>
          rw [hlw] at hWs0'
          simp only [Option.map_some', Option.some.injEq] at hWs0'
          have hne' : e.monitor ≠ m' ∨ e.workspace ≠ w' := by
            by_contra hc
            push_neg at hc
            exact hne (by rw [hc.1, hc.2])
          have hx : (m', w', e.id) ∈ toRemoveWorkspace registry m' w' ws0 := by
            cases hinit : e.isInitial with
            | true =>
              apply toRemoveWorkspace_mem_init registry m' w' ws0
                { kind := ApplicationIdentifier.exe, id := e.id
                  matching_strategy := none } ?_ e he rfl hne'
              rw [← hWs0']
              rw [show (workspaceConfigFromLive defaults registry lw).initial_workspace_rules
                  = optOfList (workspaceRulesFromRegistry registry).1 from rfl]
              rw [optOfList_getD]
              exact workspaceRulesFromRegistry_mem_init registry e he hexe hinit
            | false =>
              apply toRemoveWorkspace_mem_ws registry m' w' ws0
                { kind := ApplicationIdentifier.exe, id := e.id
                  matching_strategy := none } ?_ e he rfl hne'
              rw [← hWs0']
              rw [show (workspaceConfigFromLive defaults registry lw).workspace_rules
                  = optOfList (workspaceRulesFromRegistry registry).2 from rfl]
              rw [optOfList_getD]
              exact workspaceRulesFromRegistry_mem_ws registry e he hexe hinit
          have hxm : (m', w', e.id)
              ∈ toRemoveMonitor registry m' 0 mon0.workspaces := by
            apply toRemoveMonitor_mem registry m' mon0.workspaces 0 w' ws0 _ hWs0
            rw [Nat.zero_add]
            exact hx
          have hxa : (m', w', e.id) ∈ toRemoveAll registry 0
              (live.map (monitorConfigFromLive defaults registry)) := by
            apply toRemoveAll_mem registry _ 0 m' mon0 _ hUm
            rw [Nat.zero_add]
            exact hxm
          exact foldl_pruneRule_removes _ _ hxa mon ws hmon hws
  · -- an id that does not end in "exe" never enters any serialized rule list
    have habs : RuleIdAbsentAt
        (live.map (monitorConfigFromLive defaults registry)) m' w' e.id := by
      intro mon2 ws2 hm2 hw2
      rw [List.getElem?_map] at hm2
      cases hlm : live[m']? with
      | none => rw [hlm] at hm2; exact absurd hm2 (by simp)
      | some lm =>
        rw [hlm] at hm2
        simp only [Option.map_some', Option.some.injEq] at hm2
        rw [← hm2] at hw2
        unfold monitorConfigFromLive at hw2
        simp only [List.getElem?_map] at hw2
        cases hlw : lm.workspaces[w']? with
        | none => rw [hlw] at hw2; exact absurd hw2 (by simp)
        | some lw =>
          rw [hlw] at hw2
          simp only [Option.map_some', Option.some.injEq] at hw2
          constructor
          · intro r hr hid
            rw [← hw2] at hr
            rw [show (workspaceConfigFromLive defaults registry lw).workspace_rules
                = optOfList (workspaceRulesFromRegistry registry).2 from rfl,
              optOfList_getD] at hr
            obtain ⟨e2, _, hid2, hexe2⟩ :=
              workspaceRulesFromRegistry_id_of_mem registry r (Or.inr hr)
            apply hexe
            rw [← hid, hid2]
            exact hexe2
          · intro r hr hid
            rw [← hw2] at hr
            rw [show (workspaceConfigFromLive defaults registry lw).initial_workspace_rules
                = optOfList (workspaceRulesFromRegistry registry).1 from rfl,
              optOfList_getD] at hr
            obtain ⟨e2, _, hid2, hexe2⟩ :=
              workspaceRulesFromRegistry_id_of_mem registry r (Or.inl hr)
            apply hexe
            rw [← hid, hid2]
            exact hexe2
    exact foldl_pruneRule_absent _ _ habs mon ws hmon hws

theorem workspace_rule_relocation_pruned_witness :
    (⟨"app.exe", 0, 0, false⟩ : WsRuleEntry) ∈ wsRegistryW ∧
    ((0 : Nat), (1 : Nat)) ≠ ((0 : Nat), (0 : Nat)) ∧
    (staticConfigMonitors (10, 10) liveMonitorsW wsRegistryW)[0]?
      = some prunedMonitorW ∧
    prunedMonitorW.workspaces[1]? = some prunedWorkspace1W ∧
    ((∀ r ∈ prunedWorkspace1W.workspace_rules.getD [], r.id ≠ "app.exe") ∧
      (∀ r ∈ prunedWorkspace1W.initial_workspace_rules.getD [],
        r.id ≠ "app.exe")) :=
  ⟨by decide, by decide, rfl, rfl,
   workspace_rule_relocation_pruned (10, 10) liveMonitorsW wsRegistryW
     ⟨"app.exe", 0, 0, false⟩ (by decide) 0 1 (by decide) prunedMonitorW
     prunedWorkspace1W rfl rfl⟩

end Komorebi
